import Mathlib

/-!
Verification of the ProfilePilot server against its specification.

The development shallowly embeds the in-memory storage layer
(`server/storage.ts`, class `MemStorage`), the Express route handlers
(`server/routes.ts`) and the report generators (`report-utils`,
`generateWeeklySalesReport` / `generateDailyReport`) as pure Lean
functions.  JavaScript objects keyed by numbers or weekday strings are
embedded as insertion-ordered association lists (`JsMap`), dates as day
numbers since 1970-01-01, and the DOCX documents as structures of the
strings they contain.
-/

namespace ProfilePilot

/-- User roles, from the `role` enum of `shared/schema.ts`. -/
inductive Role where
  | manager
  | lead_gen
  | sales
deriving DecidableEq, Repr

/-- A row of the `users` table. -/
structure User where
  id : Nat
  username : String
  password : String
  name : String
  email : String
  role : Role
deriving DecidableEq, Repr

/-- A row of the `profiles` table (`createdAt` omitted: no claim touches it). -/
structure Profile where
  id : Nat
  name : String
  description : String
  resumeContent : Option String
  resumeFileName : Option String
  resumeBuffer : Option String
  createdBy : Option Nat
deriving DecidableEq, Repr

/-- A row of the `lead_gen_assignments` table. -/
structure LeadGenAssignment where
  id : Nat
  userId : Nat
  profileId : Nat
deriving DecidableEq, Repr

/-- A row of the `sales_assignments` table. -/
structure SalesAssignment where
  id : Nat
  userId : Nat
  profileId : Nat
deriving DecidableEq, Repr

/-- A row of the `targets` table; dates are day numbers since 1970-01-01. -/
structure Target where
  id : Nat
  userId : Nat
  profileId : Nat
  jobsToFetch : Int
  jobsToApply : Int
  startDate : Nat
  endDate : Nat
  isWeekly : Bool
deriving DecidableEq, Repr

/-- A row of the `progress_updates` table. -/
structure ProgressUpdate where
  id : Nat
  userId : Nat
  profileId : Nat
  date : Nat
  jobsFetched : Int
  jobsApplied : Int
  notes : Option String
deriving DecidableEq, Repr

/-- A row of the `lead_entries` table. -/
structure LeadEntry where
  id : Nat
  userId : Nat
  profileId : Nat
  date : Nat
  newLeads : Int
  clientRejections : Int
  teamRejections : Int
  notes : Option String
deriving DecidableEq, Repr

/-!
JavaScript plain objects used as dictionaries (`Record<number, T>`,
`Record<string, T>`) are embedded as insertion-ordered association
lists: reading a missing key gives `none` (JS `undefined`), assignment
to an existing key updates it in place, assignment to a fresh key
appends it (JS property-insertion order).
-/

/-- Insertion-ordered association list embedding a JS object. -/
def JsMap (κ α : Type) : Type := List (κ × α)

instance {κ α : Type} [DecidableEq κ] [DecidableEq α] : DecidableEq (JsMap κ α) :=
  inferInstanceAs (DecidableEq (List (κ × α)))

instance {κ α : Type} [Repr κ] [Repr α] : Repr (JsMap κ α) :=
  inferInstanceAs (Repr (List (κ × α)))

namespace JsMap

variable {κ α : Type} [DecidableEq κ]

/-- Property read `m[k]`: `none` models `undefined`. -/
def get : JsMap κ α → κ → Option α
  | [], _ => none
  | e :: es, k => if e.1 = k then some e.2 else get es k

/-- Property read with a default (JS `m[k] || d` on numbers uses `d = 0`). -/
def getD (m : JsMap κ α) (k : κ) (d : α) : α := (m.get k).getD d

/-- Property write `m[k] = v`. -/
def set : JsMap κ α → κ → α → JsMap κ α
  | [], k, v => [(k, v)]
  | e :: es, k, v => if e.1 = k then (k, v) :: es else e :: set es k v

/-- The keys of the object, in property order. -/
def keys (m : JsMap κ α) : List κ := m.map Prod.fst

theorem get_set_self (m : JsMap κ α) (k : κ) (v : α) : (m.set k v).get k = some v := by
  induction m with
  | nil => simp [set, get]
  | cons e es ih =>
      by_cases h : e.1 = k
      · simp [set, get, h]
      · simp [set, get, h, ih]

theorem get_set_ne (m : JsMap κ α) {k k' : κ} (v : α) (h : k' ≠ k) :
    (m.set k v).get k' = m.get k' := by
  have hk : ¬ (k = k') := fun hh => h hh.symm
  induction m with
  | nil => simp [set, get, hk]
  | cons e es ih =>
      by_cases he : e.1 = k
      · subst he
        simp [set, get, hk]
      · by_cases he' : e.1 = k'
        · subst he'
          simp [set, get, he]
        · simp [set, get, he, he', ih]

theorem getD_set_self (m : JsMap κ α) (k : κ) (v d : α) : (m.set k v).getD k d = v := by
  simp [getD, get_set_self]

theorem getD_set_ne (m : JsMap κ α) {k k' : κ} (v : α) (d : α) (h : k' ≠ k) :
    (m.set k v).getD k' d = m.getD k' d := by
  simp [getD, get_set_ne m v h]

theorem set_set (m : JsMap κ α) (k : κ) (v w : α) : (m.set k v).set k w = m.set k w := by
  induction m with
  | nil => simp [set]
  | cons e es ih =>
      by_cases h : e.1 = k
      · simp [set, h]
      · simp [set, h, ih]

omit [DecidableEq κ] in
theorem mem_keys_cons {e : κ × α} {es : List (κ × α)} {k : κ} :
    k ∈ keys (e :: es) ↔ k = e.1 ∨ k ∈ keys es := by
  simp [keys]

theorem keys_set_of_mem (m : JsMap κ α) {k : κ} (v : α) (h : k ∈ m.keys) :
    (m.set k v).keys = m.keys := by
  induction m with
  | nil => simp [keys] at h
  | cons e es ih =>
      by_cases he : e.1 = k
      · simp [set, keys, he]
      · have h' : k ∈ keys es := by
          rcases mem_keys_cons.mp h with h1 | h2
          · exact absurd h1.symm he
          · exact h2
        have hes := ih h'
        simp only [keys] at hes
        simp [set, he, keys, hes]

theorem keys_set_of_not_mem (m : JsMap κ α) {k : κ} (v : α) (h : k ∉ m.keys) :
    (m.set k v).keys = m.keys ++ [k] := by
  induction m with
  | nil => simp [set, keys]
  | cons e es ih =>
      have he : e.1 ≠ k := fun hh => h (mem_keys_cons.mpr (Or.inl hh.symm))
      have h' : k ∉ keys es := fun hh => h (mem_keys_cons.mpr (Or.inr hh))
      have hes := ih h'
      simp only [keys] at hes
      simp [set, he, keys, hes]

/-- Reading a key that was never a key of the object gives `undefined`. -/
theorem get_eq_none_of_not_mem_keys (m : JsMap κ α) {k : κ} (h : k ∉ m.keys) :
    m.get k = none := by
  induction m with
  | nil => rfl
  | cons e es ih =>
      have he : e.1 ≠ k := fun hh => h (mem_keys_cons.mpr (Or.inl hh.symm))
      have h' : k ∉ keys es := fun hh => h (mem_keys_cons.mpr (Or.inr hh))
      simp [get, he, ih h']

end JsMap

/-!
Calendar helpers embedding the `date-fns` `format` calls used by the
report module.  A date is a day number since 1970-01-01 (a Thursday).
-/

/-- Day of the week, embedding the strings produced by `format(date, 'EEEE')`. -/
inductive Weekday where
  | sunday | monday | tuesday | wednesday | thursday | friday | saturday
deriving DecidableEq, Repr

/-- Weekday of a day number (day 0, 1970-01-01, is a Thursday). -/
def dayOfWeek (z : Nat) : Weekday :=
  match (z + 4) % 7 with
  | 0 => .sunday
  | 1 => .monday
  | 2 => .tuesday
  | 3 => .wednesday
  | 4 => .thursday
  | 5 => .friday
  | _ => .saturday

/-- The five days hard-coded in `generateWeeklySalesReport`
(`['Monday', 'Tuesday', 'Wednesday', 'Thursday', 'Friday']`). -/
def reportDays : List Weekday :=
  [.monday, .tuesday, .wednesday, .thursday, .friday]

/-- The `includes` membership test on the hard-coded weekday list. -/
def Weekday.isReportDay (d : Weekday) : Bool := reportDays.contains d

/-- English weekday name, as produced by `format(date, 'EEEE')`. -/
def Weekday.name : Weekday → String
  | .sunday => "Sunday"
  | .monday => "Monday"
  | .tuesday => "Tuesday"
  | .wednesday => "Wednesday"
  | .thursday => "Thursday"
  | .friday => "Friday"
  | .saturday => "Saturday"

/-- Gregorian (year, month, day) of a day number since 1970-01-01. -/
def civilFromDays (z0 : Nat) : Nat × Nat × Nat :=
  let z := z0 + 719468
  let era := z / 146097
  let doe := z % 146097
  let yoe := (doe - doe / 1460 + doe / 36524 - doe / 146096) / 365
  let y := yoe + era * 400
  let doy := doe - (365 * yoe + yoe / 4 - yoe / 100)
  let mp := (5 * doy + 2) / 153
  let d := doy - (153 * mp + 2) / 5 + 1
  let m := if mp < 10 then mp + 3 else mp - 9
  (if m ≤ 2 then y + 1 else y, m, d)

/-- Full English month name, as produced by `format(date, 'MMMM')`. -/
def monthFullName (m : Nat) : String :=
  match m with
  | 1 => "January" | 2 => "February" | 3 => "March" | 4 => "April"
  | 5 => "May" | 6 => "June" | 7 => "July" | 8 => "August"
  | 9 => "September" | 10 => "October" | 11 => "November" | _ => "December"

/-- Abbreviated English month name, as produced by `format(date, 'MMM')`. -/
def monthShortName (m : Nat) : String :=
  match m with
  | 1 => "Jan" | 2 => "Feb" | 3 => "Mar" | 4 => "Apr"
  | 5 => "May" | 6 => "Jun" | 7 => "Jul" | 8 => "Aug"
  | 9 => "Sep" | 10 => "Oct" | 11 => "Nov" | _ => "Dec"

/-- English ordinal suffix of a day of the month. -/
def ordinalSuffix (n : Nat) : String :=
  if n % 100 = 11 ∨ n % 100 = 12 ∨ n % 100 = 13 then "th"
  else if n % 10 = 1 then "st"
  else if n % 10 = 2 then "nd"
  else if n % 10 = 3 then "rd"
  else "th"

/-- Ordinal day of the month, as produced by `format(date, 'do')`. -/
def formatDo (z : Nat) : String :=
  let c := civilFromDays z
  toString c.2.2 ++ ordinalSuffix c.2.2

/-- Full month name of a date, as produced by `format(date, 'MMMM')`. -/
def formatMMMM (z : Nat) : String := monthFullName (civilFromDays z).2.1

/-- Date rendering of `format(date, 'MMM do, yyyy')` used by the daily report title. -/
def formatMMMDoYYYY (z : Nat) : String :=
  let c := civilFromDays z
  monthShortName c.2.1 ++ " " ++ toString c.2.2 ++ ordinalSuffix c.2.2
    ++ ", " ++ toString c.1

/-- Embedding of `formatReportDateRange` (report-utils): both month names come
from `fromDate`. -/
def formatReportDateRange (fromDate toDate : Nat) : String :=
  let fromDay := formatDo fromDate
  let toDay := formatDo toDate
  let month := formatMMMM fromDate
  fromDay ++ " " ++ month ++ "–" ++ toDay ++ " " ++ month

/-!
The in-memory storage layer: class `MemStorage` of `server/storage.ts`.
The `Map` fields are embedded as lists in insertion order (`Array.from(map.values())`
enumerates values in insertion order), and each mutating method becomes a
function returning its result together with the new state.
-/

/-- State of `MemStorage`: the seven entity maps (as value lists in insertion
order) and the running id counters. -/
structure MemStorage where
  users : List User
  profiles : List Profile
  leadGenAssignments : List LeadGenAssignment
  salesAssignments : List SalesAssignment
  targets : List Target
  progressUpdates : List ProgressUpdate
  leadEntries : List LeadEntry
  currentUserId : Nat
  currentProfileId : Nat
  currentLeadGenAssignmentId : Nat
  currentSalesAssignmentId : Nat
  currentTargetId : Nat
  currentProgressUpdateId : Nat
  currentLeadEntryId : Nat
deriving DecidableEq, Repr

/-- Deletion from a `Map` keyed by an id: removes the entry with that key and
reports whether it existed (`map.delete(id)`). -/
def deleteByKey {α : Type} (key : α → Nat) : List α → Nat → Bool × List α
  | [], _ => (false, [])
  | x :: xs, k =>
      if key x = k then (true, xs)
      else ((deleteByKey key xs k).1, x :: (deleteByKey key xs k).2)

theorem deleteByKey_sublist {α : Type} (key : α → Nat) (l : List α) (k : Nat) :
    (deleteByKey key l k).2.Sublist l := by
  induction l with
  | nil => simp [deleteByKey]
  | cons x xs ih =>
      by_cases h : key x = k
      · simp [deleteByKey, h]
      · simpa [deleteByKey, h] using List.Sublist.cons₂ x ih

theorem mem_deleteByKey {α : Type} (key : α → Nat) {l : List α} {k : Nat} {x : α}
    (hx : x ∈ l) (hk : key x ≠ k) : x ∈ (deleteByKey key l k).2 := by
  induction l with
  | nil => simp at hx
  | cons y ys ih =>
      by_cases h : key y = k
      · have hxy : x ≠ y := fun e => hk (e ▸ h)
        have hx2 : x ∈ ys := by
          rcases List.mem_cons.mp hx with e | m
          · exact absurd e hxy
          · exact m
        simp [deleteByKey, h, hx2]
      · rcases List.mem_cons.mp hx with e | m
        · simp [deleteByKey, h, e]
        · simp [deleteByKey, h]
          exact Or.inr (ih m)

namespace MemStorage

/-- Method `getUser`: map lookup by id. -/
def getUser (s : MemStorage) (id : Nat) : Option User :=
  s.users.find? (fun u => u.id == id)

/-- Method `getUsers(role?)`: all users, optionally filtered by role. -/
def getUsers (s : MemStorage) (role : Option Role) : List User :=
  match role with
  | some r => s.users.filter (fun u => u.role == r)
  | none => s.users

/-- Method `createUser`: assigns the next id and stores the user. -/
def createUser (s : MemStorage) (username password name email : String)
    (role : Role) : User × MemStorage :=
  let id := s.currentUserId
  let user : User := ⟨id, username, password, name, email, role⟩
  (user, { s with users := s.users ++ [user], currentUserId := id + 1 })

/-- Method `getProfile`: map lookup by id. -/
def getProfile (s : MemStorage) (id : Nat) : Option Profile :=
  s.profiles.find? (fun p => p.id == id)

/-- Method `getProfiles`. -/
def getProfiles (s : MemStorage) : List Profile := s.profiles

/-- Insert payload of `createProfile` (type `InsertProfile` of the schema). -/
structure InsertProfile where
  name : String
  description : String
  resumeContent : String
  resumeFileName : Option String
  resumeBuffer : Option String
  createdBy : Option Nat
deriving DecidableEq, Repr

/-- Method `createProfile`: assigns the next id; empty-string resume fields
collapse to null through `|| null`. -/
def createProfile (s : MemStorage) (ip : InsertProfile) : Profile × MemStorage :=
  let id := s.currentProfileId
  let profile : Profile :=
    { id := id
      name := ip.name
      description := ip.description
      resumeContent := if ip.resumeContent = "" then none else some ip.resumeContent
      resumeFileName := ip.resumeFileName
      resumeBuffer := ip.resumeBuffer
      createdBy := ip.createdBy }
  (profile, { s with profiles := s.profiles ++ [profile], currentProfileId := id + 1 })

/-- Method `deleteProfile`: refuses to delete a profile referenced by any
assignment, target, progress update or lead entry; otherwise removes it and
reports whether it existed. -/
def deleteProfile (s : MemStorage) (id : Nat) : Bool × MemStorage :=
  if (s.leadGenAssignments.filter (fun a => a.profileId == id)).length > 0
      ∨ (s.salesAssignments.filter (fun a => a.profileId == id)).length > 0
      ∨ (s.targets.filter (fun t => t.profileId == id)).length > 0
      ∨ (s.progressUpdates.filter (fun u => u.profileId == id)).length > 0
      ∨ (s.leadEntries.filter (fun e => e.profileId == id)).length > 0 then
    (false, s)
  else
    ((deleteByKey Profile.id s.profiles id).1,
      { s with profiles := (deleteByKey Profile.id s.profiles id).2 })

/-- Method `getLeadGenAssignment`: the first assignment of the given user. -/
def getLeadGenAssignment (s : MemStorage) (userId : Nat) : Option LeadGenAssignment :=
  s.leadGenAssignments.find? (fun a => a.userId == userId)

/-- Method `getLeadGenAssignments`. -/
def getLeadGenAssignments (s : MemStorage) : List LeadGenAssignment :=
  s.leadGenAssignments

/-- In-place mutation of the first assignment of `userId`
(`existingAssignment.profileId = ...` mutates the object held by the map). -/
def setProfileOfFirst : List LeadGenAssignment → Nat → Nat → List LeadGenAssignment
  | [], _, _ => []
  | a :: as', u, p =>
      if a.userId = u then { a with profileId := p } :: as'
      else a :: setProfileOfFirst as' u p

/-- Method `createLeadGenAssignment`: a user who already has an assignment gets
its `profileId` overwritten instead of a new row. -/
def createLeadGenAssignment (s : MemStorage) (userId profileId : Nat) :
    LeadGenAssignment × MemStorage :=
  match s.getLeadGenAssignment userId with
  | some ex =>
      ({ ex with profileId := profileId },
        { s with leadGenAssignments := setProfileOfFirst s.leadGenAssignments userId profileId })
  | none =>
      let id := s.currentLeadGenAssignmentId
      let a : LeadGenAssignment := ⟨id, userId, profileId⟩
      (a, { s with leadGenAssignments := s.leadGenAssignments ++ [a],
                   currentLeadGenAssignmentId := id + 1 })

/-- Method `deleteLeadGenAssignment`: finds the user's assignment and deletes
it by its id. -/
def deleteLeadGenAssignment (s : MemStorage) (userId : Nat) : Bool × MemStorage :=
  match s.getLeadGenAssignment userId with
  | none => (false, s)
  | some a =>
      let r := deleteByKey LeadGenAssignment.id s.leadGenAssignments a.id
      (r.1, { s with leadGenAssignments := r.2 })

/-- Method `updateLeadGenAssignment`: overwrites the `profileId` of the user's
assignment when it exists. -/
def updateLeadGenAssignment (s : MemStorage) (userId profileId : Nat) :
    Option LeadGenAssignment × MemStorage :=
  match s.getLeadGenAssignment userId with
  | none => (none, s)
  | some a =>
      (some { a with profileId := profileId },
        { s with leadGenAssignments := setProfileOfFirst s.leadGenAssignments userId profileId })

/-- Method `getSalesAssignments(userId?)`: note the JS truthiness test
`if (userId)`, under which an id of `0` behaves like no filter. -/
def getSalesAssignments (s : MemStorage) (userId : Option Nat) : List SalesAssignment :=
  match userId with
  | some u => if u ≠ 0 then s.salesAssignments.filter (fun a => a.userId == u)
              else s.salesAssignments
  | none => s.salesAssignments

/-- Method `createSalesAssignment`: returns the existing row when the
(userId, profileId) pair is already present. -/
def createSalesAssignment (s : MemStorage) (userId profileId : Nat) :
    SalesAssignment × MemStorage :=
  match s.salesAssignments.find? (fun a => a.userId == userId && a.profileId == profileId) with
  | some ex => (ex, s)
  | none =>
      let id := s.currentSalesAssignmentId
      let a : SalesAssignment := ⟨id, userId, profileId⟩
      (a, { s with salesAssignments := s.salesAssignments ++ [a],
                   currentSalesAssignmentId := id + 1 })

/-- Method `deleteSalesAssignment`. -/
def deleteSalesAssignment (s : MemStorage) (id : Nat) : Bool × MemStorage :=
  let r := deleteByKey SalesAssignment.id s.salesAssignments id
  (r.1, { s with salesAssignments := r.2 })

/-- Method `getTargets(userId?)`, with the same JS truthiness test. -/
def getTargets (s : MemStorage) (userId : Option Nat) : List Target :=
  match userId with
  | some u => if u ≠ 0 then s.targets.filter (fun t => t.userId == u) else s.targets
  | none => s.targets

/-- Insert payload of `createTarget`. -/
structure InsertTarget where
  userId : Nat
  profileId : Nat
  jobsToFetch : Int
  jobsToApply : Int
  startDate : Nat
  endDate : Nat
  isWeekly : Bool
deriving DecidableEq, Repr

/-- Method `createTarget`. -/
def createTarget (s : MemStorage) (it : InsertTarget) : Target × MemStorage :=
  let id := s.currentTargetId
  let t : Target := ⟨id, it.userId, it.profileId, it.jobsToFetch, it.jobsToApply,
    it.startDate, it.endDate, it.isWeekly⟩
  (t, { s with targets := s.targets ++ [t], currentTargetId := id + 1 })

/-- Method `getProgressUpdates(userId?, fromDate?, toDate?)`: userId filter
under JS truthiness, then inclusive date-range filters. -/
def getProgressUpdates (s : MemStorage) (userId : Option Nat)
    (fromDate toDate : Option Nat) : List ProgressUpdate :=
  let l := s.progressUpdates
  let l := match userId with
    | some u => if u ≠ 0 then l.filter (fun x => x.userId == u) else l
    | none => l
  let l := match fromDate with
    | some f => l.filter (fun x => f ≤ x.date)
    | none => l
  match toDate with
  | some t => l.filter (fun x => x.date ≤ t)
  | none => l

/-- Insert payload of `createProgressUpdate`. -/
structure InsertProgressUpdate where
  userId : Nat
  profileId : Nat
  date : Nat
  jobsFetched : Int
  jobsApplied : Int
  notes : Option String
deriving DecidableEq, Repr

/-- Method `createProgressUpdate`: empty-string notes collapse to null. -/
def createProgressUpdate (s : MemStorage) (iu : InsertProgressUpdate) :
    ProgressUpdate × MemStorage :=
  let id := s.currentProgressUpdateId
  let u : ProgressUpdate :=
    { id := id
      userId := iu.userId
      profileId := iu.profileId
      date := iu.date
      jobsFetched := iu.jobsFetched
      jobsApplied := iu.jobsApplied
      notes := match iu.notes with
        | some n => if n = "" then none else some n
        | none => none }
  (u, { s with progressUpdates := s.progressUpdates ++ [u],
               currentProgressUpdateId := id + 1 })

/-- Method `getLeadEntries(userId?, fromDate?, toDate?)`. -/
def getLeadEntries (s : MemStorage) (userId : Option Nat)
    (fromDate toDate : Option Nat) : List LeadEntry :=
  let l := s.leadEntries
  let l := match userId with
    | some u => if u ≠ 0 then l.filter (fun x => x.userId == u) else l
    | none => l
  let l := match fromDate with
    | some f => l.filter (fun x => f ≤ x.date)
    | none => l
  match toDate with
  | some t => l.filter (fun x => x.date ≤ t)
  | none => l

/-- Insert payload of `createLeadEntry`. -/
structure InsertLeadEntry where
  userId : Nat
  profileId : Nat
  date : Nat
  newLeads : Int
  clientRejections : Int
  teamRejections : Int
  notes : Option String
deriving DecidableEq, Repr

/-- Method `createLeadEntry`. -/
def createLeadEntry (s : MemStorage) (ie : InsertLeadEntry) : LeadEntry × MemStorage :=
  let id := s.currentLeadEntryId
  let e : LeadEntry :=
    { id := id
      userId := ie.userId
      profileId := ie.profileId
      date := ie.date
      newLeads := ie.newLeads
      clientRejections := ie.clientRejections
      teamRejections := ie.teamRejections
      notes := match ie.notes with
        | some n => if n = "" then none else some n
        | none => none }
  (e, { s with leadEntries := s.leadEntries ++ [e], currentLeadEntryId := id + 1 })

/-- The first maximal-`endDate` target, embedding the stable descending sort by
`endDate` followed by taking element 0. -/
def latestTarget : List Target → Option Target
  | [] => none
  | t :: ts =>
      match latestTarget ts with
      | none => some t
      | some best => if best.endDate ≤ t.endDate then some t else some best

/-- Method `getUserAssignedProfile`: for a lead_gen user, their assignment's
profile together with the most recent target. -/
def getUserAssignedProfile (s : MemStorage) (userId : Nat) :
    Option (Profile × Option Target) :=
  match s.getUser userId with
  | none => none
  | some u =>
      if u.role = Role.lead_gen then
        match s.getLeadGenAssignment userId with
        | none => none
        | some a =>
            match s.getProfile a.profileId with
            | none => none
            | some p => some (p, latestTarget (s.getTargets (some userId)))
      else none

/-- Method `getUserAssignedProfiles`: for a sales user, the profiles of all
their sales assignments. -/
def getUserAssignedProfiles (s : MemStorage) (userId : Nat) : List Profile :=
  match s.getUser userId with
  | none => []
  | some u =>
      if u.role = Role.sales then
        (s.getSalesAssignments (some userId)).filterMap (fun a => s.getProfile a.profileId)
      else []

end MemStorage

/-- The default users created by the `MemStorage` constructor. -/
def defaultUsers : List (String × String × String × String × Role) :=
  [("manager", "password123", "Manager User", "manager@example.com", Role.manager),
   ("leadgen1", "password123", "Lead Gen User 1", "leadgen1@example.com", Role.lead_gen),
   ("leadgen2", "password123", "Lead Gen User 2", "leadgen2@example.com", Role.lead_gen),
   ("sales1", "password123", "Sales User 1", "sales1@example.com", Role.sales),
   ("sales2", "password123", "Sales User 2", "sales2@example.com", Role.sales)]

/-- The default profiles created by the `MemStorage` constructor
(resume text abbreviated; only names and ids matter to the claims). -/
def defaultProfiles : List (String × String) :=
  [("Software Engineer", "Full-stack developer with 5 years of experience in React, Node.js, and AWS."),
   ("UX Designer", "Designer with expertise in user research, wireframing, and prototyping."),
   ("Project Manager", "PMP certified manager with experience leading agile teams."),
   ("Marketing Specialist", "Digital marketing expert with SEO and content creation skills."),
   ("Data Analyst", "Skilled in data visualization, SQL, and statistical analysis.")]

/-- The empty storage before the constructor seeds it. -/
def emptyStorage : MemStorage :=
  { users := [], profiles := [], leadGenAssignments := [], salesAssignments := []
    targets := [], progressUpdates := [], leadEntries := []
    currentUserId := 1, currentProfileId := 1, currentLeadGenAssignmentId := 1
    currentSalesAssignmentId := 1, currentTargetId := 1
    currentProgressUpdateId := 1, currentLeadEntryId := 1 }

/-- The state after the `MemStorage` constructor: five default users and five
default profiles, no assignments, targets, updates or entries. -/
def initialStorage : MemStorage :=
  let s1 := defaultUsers.foldl
    (fun s u => (s.createUser u.1 u.2.1 u.2.2.1 u.2.2.2.1 u.2.2.2.2).2) emptyStorage
  defaultProfiles.foldl
    (fun s p => (s.createProfile
      { name := p.1, description := p.2, resumeContent := "resume",
        resumeFileName := none, resumeBuffer := none, createdBy := none }).2) s1

/-!
Report generation (`report-utils`): `generateWeeklySalesReport` and
`generateDailyReport`.  The aggregation maps built by the `forEach`
loops become folds over `JsMap`s, and the produced DOCX documents become
structures of the strings placed in them.
-/

/-- The JS counter pattern `if (!m[k]) m[k] = 0; m[k] += x` (note `!0` is
also true, so a stored zero is re-initialised before the addition). -/
def jsAdd (m : JsMap Nat Int) (k : Nat) (x : Int) : JsMap Nat Int :=
  let m1 := if m.getD k 0 = 0 then m.set k 0 else m
  m1.set k (m1.getD k 0 + x)

/-- Accumulator state of the grouping loops of `generateWeeklySalesReport`. -/
structure WeeklyAgg where
  userProfileMap : JsMap Nat (JsMap Nat Int)
  userProfileDayMap : JsMap Weekday (JsMap Nat (JsMap Nat Int))
  profileTotals : JsMap Nat Int
  dailyLeadCounts : JsMap Weekday (JsMap Nat Int)
deriving DecidableEq, Repr

/-- The accumulator as initialised before the loops: the two weekday maps are
seeded with exactly the keys Monday through Friday, and `profileTotals` with a
zero for every profile. -/
def initWeeklyAgg (profiles : List Profile) : WeeklyAgg :=
  { userProfileMap := []
    userProfileDayMap := reportDays.map (fun d => (d, []))
    profileTotals := profiles.foldl (fun m p => m.set p.id 0) []
    dailyLeadCounts := reportDays.map (fun d => (d, [])) }

/-- The nested JS counter pattern on a two-level map:
`if (!m[u]) m[u] = {}; if (!m[u][p]) m[u][p] = 0; m[u][p] += x`. -/
def bumpNested (outer : JsMap Nat (JsMap Nat Int)) (u0 p0 : Nat) (a : Int) :
    JsMap Nat (JsMap Nat Int) :=
  let outer1 := match outer.get u0 with
    | none => outer.set u0 []
    | some _ => outer
  outer1.set u0 (jsAdd ((outer1.get u0).getD []) p0 a)

/-- Body of `progressUpdates.forEach` in `generateWeeklySalesReport`:
totals per (user, profile), totals per profile, and per-weekday totals for
Monday through Friday only. -/
def processWeeklyUpdate (agg : WeeklyAgg) (x : ProgressUpdate) : WeeklyAgg :=
  let d := dayOfWeek x.date
  { userProfileMap := bumpNested agg.userProfileMap x.userId x.profileId x.jobsApplied
    userProfileDayMap :=
      if d.isReportDay then
        agg.userProfileDayMap.set d
          (bumpNested ((agg.userProfileDayMap.get d).getD []) x.userId x.profileId x.jobsApplied)
      else agg.userProfileDayMap
    profileTotals := agg.profileTotals.set x.profileId
      (agg.profileTotals.getD x.profileId 0 + x.jobsApplied)
    dailyLeadCounts := agg.dailyLeadCounts }

/-- Body of `leadEntries.forEach` in `generateWeeklySalesReport`: new-lead
counts per weekday and profile, Monday through Friday only. -/
def processWeeklyEntry (agg : WeeklyAgg) (e : LeadEntry) : WeeklyAgg :=
  let d := dayOfWeek e.date
  if d.isReportDay then
    let md := (agg.dailyLeadCounts.get d).getD []
    { agg with dailyLeadCounts := agg.dailyLeadCounts.set d (jsAdd md e.profileId e.newLeads) }
  else agg

/-- The grouping phase of `generateWeeklySalesReport` over the fetched
progress updates and lead entries. -/
def weeklyAggregate (profiles : List Profile) (ups : List ProgressUpdate)
    (entries : List LeadEntry) : WeeklyAgg :=
  entries.foldl processWeeklyEntry (ups.foldl processWeeklyUpdate (initWeeklyAgg profiles))

/-- Nested read `m[u]?.[p] || 0` on a two-level numeric map. -/
def lookup2 (m : JsMap Nat (JsMap Nat Int)) (u p : Nat) : Int :=
  ((m.get u).getD []).getD p 0

/-- Nested read on the per-weekday three-level map. -/
def lookup3 (m : JsMap Weekday (JsMap Nat (JsMap Nat Int))) (d : Weekday) (u p : Nat) : Int :=
  lookup2 ((m.get d).getD []) u p

/-- Read `dailyLeadCounts[day]?.[p] || 0`. -/
def lookupDay (m : JsMap Weekday (JsMap Nat Int)) (d : Weekday) (p : Nat) : Int :=
  ((m.get d).getD []).getD p 0

/-- Sum of `jobsApplied` over the updates of one (user, profile) pair. -/
def sumApplied (u p : Nat) (ups : List ProgressUpdate) : Int :=
  ((ups.filter (fun x => x.userId == u && x.profileId == p)).map (fun x => x.jobsApplied)).sum

/-- Sum of `jobsApplied` over the updates of one (weekday, user, profile) triple. -/
def sumAppliedOnDay (d : Weekday) (u p : Nat) (ups : List ProgressUpdate) : Int :=
  ((ups.filter (fun x => dayOfWeek x.date == d && x.userId == u && x.profileId == p)).map
    (fun x => x.jobsApplied)).sum

/-- Sum of `newLeads` over the entries of one (weekday, profile) pair. -/
def sumLeadsOnDay (d : Weekday) (p : Nat) (entries : List LeadEntry) : Int :=
  ((entries.filter (fun e => dayOfWeek e.date == d && e.profileId == p)).map
    (fun e => e.newLeads)).sum

/-- Cell text of the main weekly table:
`userProfileMap[user.id]?.[profile.id] || ''` rendered, with zero or missing
shown as the empty string. -/
def weeklyCellText (m : JsMap Nat (JsMap Nat Int)) (u p : Nat) : String :=
  let v := lookup2 m u p
  if v = 0 then "" else toString v

/-- Data rows of the main weekly table, one per lead-gen user
(`users.map((user, index) => ...)` with the running index). -/
def weeklyDataRows (profiles : List Profile) (m : JsMap Nat (JsMap Nat Int)) :
    Nat → List User → List (List String)
  | _, [] => []
  | i, u :: us =>
      (toString (i + 1) :: u.name :: profiles.map (fun p => weeklyCellText m u.id p.id))
        :: weeklyDataRows profiles m (i + 1) us

/-- The weekly DOCX document, as the strings placed in it. -/
structure WeeklyReportDoc where
  title : String
  employeeLines : List String
  mainHeader : List String
  mainSubHeader : List String
  mainRows : List (List String)
  totalsHeader : List String
  totalsRow : List String
  coordinatorHeader : List String
  coordinatorRows : List (List String)
  coordinatorTotals : List String
deriving DecidableEq, Repr

/-- Embedding of `generateWeeklySalesReport(fromDate, toDate)`. -/
def generateWeeklySalesReport (s : MemStorage) (fromDate toDate : Nat) : WeeklyReportDoc :=
  let leadGenUsers := s.getUsers (some Role.lead_gen)
  let profiles := s.getProfiles
  let ups := s.getProgressUpdates none (some fromDate) (some toDate)
  let entries := s.getLeadEntries none (some fromDate) (some toDate)
  let agg := weeklyAggregate profiles ups entries
  { title := "Total Fetching & Applies " ++ formatDo fromDate ++ " "
      ++ formatMMMM fromDate ++ "–" ++ formatDo toDate ++ formatMMMM toDate
    employeeLines := leadGenUsers.map (fun u => u.name ++ " Joining Date 1st Feb")
    mainHeader := "S #" :: "Employee Name" :: profiles.map (fun p => p.name)
    mainSubHeader := "" :: "" :: profiles.map (fun _ => "Applied")
    mainRows := weeklyDataRows profiles agg.userProfileMap 0 leadGenUsers
    totalsHeader := profiles.map
      (fun p => "Total Applied 24th March – 28th March\n" ++ p.name ++ "\nProfile")
    totalsRow := profiles.map (fun p => toString (agg.profileTotals.getD p.id 0))
    coordinatorHeader := "Day" :: profiles.map (fun p => p.name)
    coordinatorRows := reportDays.map (fun d =>
      d.name :: profiles.map (fun p => toString (lookupDay agg.dailyLeadCounts d p.id)))
    coordinatorTotals := "Total" :: profiles.map (fun p =>
      toString (reportDays.foldl (fun acc d => acc + lookupDay agg.dailyLeadCounts d p.id) 0)) }

/-- Per-user accumulator of `generateDailyReport` (`userUpdates[userId]`). -/
structure DailyUserData where
  jobsFetched : Int
  jobsApplied : Int
  profileName : String
deriving DecidableEq, Repr

/-- Body of `progressUpdates.forEach` in `generateDailyReport`: a first update
creates the entry (naming the profile of that first update), then fetched and
applied counts accumulate. -/
def processDailyUpdate (profiles : List Profile) (m : JsMap Nat DailyUserData)
    (x : ProgressUpdate) : JsMap Nat DailyUserData :=
  let m1 := match m.get x.userId with
    | none =>
        let pname := (((profiles.find? (fun (p : Profile) => p.id == x.profileId)).map
          Profile.name).getD "Unknown Profile")
        m.set x.userId ⟨0, 0, pname⟩
    | some _ => m
  match m1.get x.userId with
  | some d =>
      m1.set x.userId { d with jobsFetched := d.jobsFetched + x.jobsFetched,
                               jobsApplied := d.jobsApplied + x.jobsApplied }
  | none => m1

/-- The grouping phase of `generateDailyReport`. -/
def dailyAggregate (profiles : List Profile) (ups : List ProgressUpdate) :
    JsMap Nat DailyUserData :=
  ups.foldl (processDailyUpdate profiles) []

/-- Round half up of the exact fraction n / d (for d > 0). -/
def roundHalfUp (n d : Int) : Int := Int.fdiv (2 * n + d) (2 * d)

/-- Rendering of `(n / d).toFixed(1)` on the exact fraction n / d. -/
def toFixed1Frac (n d : Int) : String :=
  let t : Int := roundHalfUp (10 * n) d
  let sign := if t < 0 then "-" else ""
  let a := t.natAbs
  sign ++ toString (a / 10) ++ "." ++ toString (a % 10)

/-- The completion cell:
`jobsFetched > 0 ? ((jobsApplied / jobsFetched) * 100).toFixed(1) + "%" : "0%"`
(the fraction `(jobsApplied / jobsFetched) * 100` is rendered exactly as
`(jobsApplied * 100) / jobsFetched`). -/
def completionCell (jobsFetched jobsApplied : Int) : String :=
  if jobsFetched > 0 then
    toFixed1Frac (jobsApplied * 100) jobsFetched ++ "%"
  else "0%"

/-- A data row of the daily report table. -/
structure DailyRow where
  serial : Nat
  employeeName : String
  profileName : String
  jobsFetched : Int
  jobsApplied : Int
  completion : String
deriving DecidableEq, Repr

/-- The row built for one lead-gen user at one index
(`leadGenUsers.map((user, index) => ...)`). -/
def mkDailyRow (m : JsMap Nat DailyUserData) (i : Nat) (u : User) : DailyRow :=
  let userData := m.get u.id
  let jobsFetched := match userData with | some d => d.jobsFetched | none => 0
  let jobsApplied := match userData with | some d => d.jobsApplied | none => 0
  let profileName := match userData with | some d => d.profileName | none => "No data"
  { serial := i + 1
    employeeName := u.name
    profileName := profileName
    jobsFetched := jobsFetched
    jobsApplied := jobsApplied
    completion := completionCell jobsFetched jobsApplied }

/-- All data rows of the daily report, one per lead-gen user in order. -/
def dailyRowsFrom (m : JsMap Nat DailyUserData) : Nat → List User → List DailyRow
  | _, [] => []
  | i, u :: us => mkDailyRow m i u :: dailyRowsFrom m (i + 1) us

/-- The daily DOCX document, as the strings placed in it. -/
structure DailyReportDoc where
  title : String
  header : List String
  rows : List DailyRow
deriving DecidableEq, Repr

/-- Embedding of `generateDailyReport(date)`. -/
def generateDailyReport (s : MemStorage) (date : Nat) : DailyReportDoc :=
  let leadGenUsers := s.getUsers (some Role.lead_gen)
  let profiles := s.getProfiles
  let ups := s.getProgressUpdates none (some date) (some date)
  let userUpdates := dailyAggregate profiles ups
  { title := "Daily Performance Report for " ++ formatMMMDoYYYY date
    header := ["S #", "Employee Name", "Profile", "Jobs Fetched", "Jobs Applied", "Completion"]
    rows := dailyRowsFrom userUpdates 0 leadGenUsers }

/-!
Route handlers (`server/routes.ts`), embedded as pure functions of the
authenticated user, the parsed request data and the storage state.
Zod validation is abstracted as a boolean predicate on the insert
payload (the insert schemas only pick the payload's own fields), and a
possibly-throwing storage call as an `Except`; the surrounding
`try/catch` maps a thrown error to status 500.
-/

/-- Outcome of the `isAuthenticated` / `hasRole` middleware chain. -/
inductive GuardResult where
  | unauthorized
  | forbidden
  | allowed (u : User)
deriving DecidableEq, Repr

/-- Middleware `hasRole(roles)`: 401 when unauthenticated, 403 when the role
is not included, otherwise pass the request on. -/
def hasRole (roles : List Role) (authUser : Option User) : GuardResult :=
  match authUser with
  | none => GuardResult.unauthorized
  | some u => if roles.contains u.role then GuardResult.allowed u else GuardResult.forbidden

/-- A guarded route: the handler runs only when `hasRole` passes the request on. -/
def dispatch {β : Type} (roles : List Role) (handler : User → β)
    (unauthorizedResp forbiddenResp : β) (authUser : Option User) : β :=
  match hasRole roles authUser with
  | GuardResult.unauthorized => unauthorizedResp
  | GuardResult.forbidden => forbiddenResp
  | GuardResult.allowed u => handler u

/-- The uniform POST create pattern: validate, then create inside the
`try/catch`, answering 400 / 201 / 500. -/
def postCreate {α β : Type} (validate : α → Bool)
    (create : α → MemStorage → Except Unit (β × MemStorage))
    (body : α) (s : MemStorage) : Nat × MemStorage × Option β :=
  if validate body then
    match create body s with
    | Except.ok (r, s2) => (201, s2, some r)
    | Except.error _ => (500, s, none)
  else (400, s, none)

/-- Handler of `POST /api/progress-updates`: requires an assigned profile and
overrides the body's `userId` and `profileId` before validation. -/
def postProgressUpdates (validate : MemStorage.InsertProgressUpdate → Bool)
    (create : MemStorage.InsertProgressUpdate → MemStorage →
      Except Unit (ProgressUpdate × MemStorage))
    (user : User) (body : MemStorage.InsertProgressUpdate) (s : MemStorage) :
    Nat × MemStorage × Option ProgressUpdate :=
  match s.getUserAssignedProfile user.id with
  | none => (400, s, none)
  | some ap =>
      let data := { body with userId := user.id, profileId := ap.1.id }
      if validate data then
        match create data s with
        | Except.ok (r, s2) => (201, s2, some r)
        | Except.error _ => (500, s, none)
      else (400, s, none)

/-- Handler of `POST /api/lead-entries`: the body's `profileId` must be among
the submitter's assigned profiles; the body's `userId` is overridden. -/
def postLeadEntries (validate : MemStorage.InsertLeadEntry → Bool)
    (create : MemStorage.InsertLeadEntry → MemStorage →
      Except Unit (LeadEntry × MemStorage))
    (user : User) (body : MemStorage.InsertLeadEntry) (s : MemStorage) :
    Nat × MemStorage × Option LeadEntry :=
  let profileIds := (s.getUserAssignedProfiles user.id).map (fun p => p.id)
  if profileIds.contains body.profileId then
    let data := { body with userId := user.id }
    if validate data then
      match create data s with
      | Except.ok (r, s2) => (201, s2, some r)
      | Except.error _ => (500, s, none)
    else (400, s, none)
  else (400, s, none)

/-- The never-throwing `MemStorage` create call for progress updates. -/
def progressCreateOp (d : MemStorage.InsertProgressUpdate) (s : MemStorage) :
    Except Unit (ProgressUpdate × MemStorage) :=
  Except.ok (s.createProgressUpdate d)

/-- The never-throwing `MemStorage` create call for lead entries. -/
def leadEntryCreateOp (d : MemStorage.InsertLeadEntry) (s : MemStorage) :
    Except Unit (LeadEntry × MemStorage) :=
  Except.ok (s.createLeadEntry d)

/-- The userId filter chosen by the list GET handlers: non-managers are pinned
to their own id; only a manager's `userId` query parameter is used. -/
def routeUserId (user : User) (queryUserId : Option Nat) : Option Nat :=
  if user.role ≠ Role.manager then some user.id else queryUserId

/-- Handler core of `GET /api/targets`. -/
def getTargetsRoute (user : User) (queryUserId : Option Nat) (s : MemStorage) :
    List Target :=
  s.getTargets (routeUserId user queryUserId)

/-- Handler core of `GET /api/progress-updates`. -/
def getProgressUpdatesRoute (user : User) (queryUserId : Option Nat)
    (fromDate toDate : Option Nat) (s : MemStorage) : List ProgressUpdate :=
  s.getProgressUpdates (routeUserId user queryUserId) fromDate toDate

/-- Handler core of `GET /api/lead-entries`. -/
def getLeadEntriesRoute (user : User) (queryUserId : Option Nat)
    (fromDate toDate : Option Nat) (s : MemStorage) : List LeadEntry :=
  s.getLeadEntries (routeUserId user queryUserId) fromDate toDate

/-!
Lemmas about the JS counter maps and the weekly grouping loops.
-/

theorem jsAdd_eq_set (m : JsMap Nat Int) (k : Nat) (x : Int) :
    jsAdd m k x = m.set k (m.getD k 0 + x) := by
  unfold jsAdd
  by_cases h : m.getD k 0 = 0
  · rw [if_pos h]
    show (m.set k 0).set k ((m.set k 0).getD k 0 + x) = m.set k (m.getD k 0 + x)
    rw [JsMap.getD_set_self, JsMap.set_set, h, zero_add]
  · simp [h]

theorem jsAdd_getD_self (m : JsMap Nat Int) (k : Nat) (x : Int) :
    (jsAdd m k x).getD k 0 = m.getD k 0 + x := by
  rw [jsAdd_eq_set, JsMap.getD_set_self]

theorem jsAdd_getD_ne (m : JsMap Nat Int) (k : Nat) (x : Int) {k' : Nat} (h : k' ≠ k) :
    (jsAdd m k x).getD k' 0 = m.getD k' 0 := by
  rw [jsAdd_eq_set]
  exact JsMap.getD_set_ne m _ 0 h

theorem bumpNested_get_self (outer : JsMap Nat (JsMap Nat Int)) (u0 p0 : Nat) (a : Int) :
    (bumpNested outer u0 p0 a).get u0 = some (jsAdd ((outer.get u0).getD []) p0 a) := by
  unfold bumpNested
  cases hget : outer.get u0 with
  | none => simp [hget, JsMap.get_set_self]
  | some m0 => simp [hget, JsMap.get_set_self]

theorem bumpNested_get_ne (outer : JsMap Nat (JsMap Nat Int)) (u0 p0 : Nat) (a : Int)
    {u : Nat} (h : u ≠ u0) :
    (bumpNested outer u0 p0 a).get u = outer.get u := by
  unfold bumpNested
  cases hget : outer.get u0 with
  | none =>
      rw [JsMap.get_set_ne _ _ h, JsMap.get_set_ne _ _ h]
  | some m0 =>
      rw [JsMap.get_set_ne _ _ h]

theorem lookup2_bumpNested (outer : JsMap Nat (JsMap Nat Int)) (u0 p0 : Nat) (a : Int)
    (u p : Nat) :
    lookup2 (bumpNested outer u0 p0 a) u p
      = lookup2 outer u p + (if u = u0 ∧ p = p0 then a else 0) := by
  by_cases hu : u = u0
  · subst hu
    by_cases hp : p = p0
    · subst hp
      rw [lookup2, bumpNested_get_self]
      simp only [Option.getD_some]
      rw [jsAdd_getD_self]
      simp [lookup2]
    · rw [lookup2, bumpNested_get_self]
      simp only [Option.getD_some]
      rw [jsAdd_getD_ne _ _ _ hp]
      simp [lookup2, hp]
  · rw [lookup2, bumpNested_get_ne _ _ _ _ hu]
    have hc : ¬ (u = u0 ∧ p = p0) := fun hh => hu hh.1
    simp [lookup2, hc]

theorem isReportDay_mem {d : Weekday} (h : d.isReportDay = true) : d ∈ reportDays := by
  revert h
  cases d <;> decide

theorem processWeeklyUpdate_lookup2 (agg : WeeklyAgg) (x : ProgressUpdate) (u p : Nat) :
    lookup2 (processWeeklyUpdate agg x).userProfileMap u p
      = lookup2 agg.userProfileMap u p
        + (if u = x.userId ∧ p = x.profileId then x.jobsApplied else 0) := by
  show lookup2 (bumpNested agg.userProfileMap x.userId x.profileId x.jobsApplied) u p = _
  exact lookup2_bumpNested _ _ _ _ _ _

theorem processWeeklyUpdate_lookup3 (agg : WeeklyAgg) (x : ProgressUpdate) (d : Weekday)
    (u p : Nat) (hd : d.isReportDay = true) :
    lookup3 (processWeeklyUpdate agg x).userProfileDayMap d u p
      = lookup3 agg.userProfileDayMap d u p
        + (if dayOfWeek x.date = d ∧ u = x.userId ∧ p = x.profileId
            then x.jobsApplied else 0) := by
  show lookup3 (if (dayOfWeek x.date).isReportDay
      then agg.userProfileDayMap.set (dayOfWeek x.date)
        (bumpNested ((agg.userProfileDayMap.get (dayOfWeek x.date)).getD [])
          x.userId x.profileId x.jobsApplied)
      else agg.userProfileDayMap) d u p = _
  by_cases hx : (dayOfWeek x.date).isReportDay = true
  · rw [if_pos hx]
    by_cases hdd : dayOfWeek x.date = d
    · subst hdd
      rw [lookup3, JsMap.get_set_self]
      simp only [Option.getD_some]
      rw [lookup2_bumpNested]
      simp [lookup3]
    · rw [lookup3, JsMap.get_set_ne _ _ (fun hh => hdd hh.symm)]
      simp [lookup3, hdd]
  · rw [if_neg hx]
    have hc : ¬ (dayOfWeek x.date = d ∧ u = x.userId ∧ p = x.profileId) := by
      intro hh
      rw [hh.1] at hx
      exact hx hd
    simp [hc]

theorem processWeeklyUpdate_dayMap_of_weekend (agg : WeeklyAgg) (x : ProgressUpdate)
    (hx : (dayOfWeek x.date).isReportDay = false) :
    (processWeeklyUpdate agg x).userProfileDayMap = agg.userProfileDayMap := by
  show (if (dayOfWeek x.date).isReportDay then _ else agg.userProfileDayMap) = _
  rw [hx]
  rfl

theorem processWeeklyUpdate_dailyLeadCounts (agg : WeeklyAgg) (x : ProgressUpdate) :
    (processWeeklyUpdate agg x).dailyLeadCounts = agg.dailyLeadCounts := rfl

theorem processWeeklyUpdate_dayMap_keys (agg : WeeklyAgg) (x : ProgressUpdate)
    (h : agg.userProfileDayMap.keys = reportDays) :
    (processWeeklyUpdate agg x).userProfileDayMap.keys = reportDays := by
  show (if (dayOfWeek x.date).isReportDay then _ else agg.userProfileDayMap).keys = _
  by_cases hx : (dayOfWeek x.date).isReportDay = true
  · rw [if_pos hx, JsMap.keys_set_of_mem]
    · exact h
    · rw [h]
      exact isReportDay_mem hx
  · rw [if_neg hx]
    exact h

theorem processWeeklyEntry_userProfileMap (agg : WeeklyAgg) (e : LeadEntry) :
    (processWeeklyEntry agg e).userProfileMap = agg.userProfileMap := by
  simp only [processWeeklyEntry]
  split <;> rfl

theorem processWeeklyEntry_dayMap (agg : WeeklyAgg) (e : LeadEntry) :
    (processWeeklyEntry agg e).userProfileDayMap = agg.userProfileDayMap := by
  simp only [processWeeklyEntry]
  split <;> rfl

theorem processWeeklyEntry_lookupDay (agg : WeeklyAgg) (e : LeadEntry) (d : Weekday)
    (p : Nat) (hd : d.isReportDay = true) :
    lookupDay (processWeeklyEntry agg e).dailyLeadCounts d p
      = lookupDay agg.dailyLeadCounts d p
        + (if dayOfWeek e.date = d ∧ p = e.profileId then e.newLeads else 0) := by
  unfold processWeeklyEntry
  by_cases hx : (dayOfWeek e.date).isReportDay = true
  · rw [if_pos hx]
    by_cases hdd : dayOfWeek e.date = d
    · subst hdd
      show lookupDay (agg.dailyLeadCounts.set (dayOfWeek e.date) _) _ _ = _
      rw [lookupDay, JsMap.get_set_self]
      simp only [Option.getD_some]
      by_cases hp : p = e.profileId
      · subst hp
        rw [jsAdd_getD_self]
        simp [lookupDay]
      · rw [jsAdd_getD_ne _ _ _ hp]
        simp [lookupDay, hp]
    · show lookupDay (agg.dailyLeadCounts.set (dayOfWeek e.date) _) _ _ = _
      rw [lookupDay, JsMap.get_set_ne _ _ (fun hh => hdd hh.symm)]
      simp [lookupDay, hdd]
  · rw [if_neg hx]
    have hc : ¬ (dayOfWeek e.date = d ∧ p = e.profileId) := by
      intro hh
      rw [hh.1] at hx
      exact hx hd
    simp [hc]

theorem processWeeklyEntry_dailyLeadCounts_of_weekend (agg : WeeklyAgg) (e : LeadEntry)
    (hx : (dayOfWeek e.date).isReportDay = false) :
    (processWeeklyEntry agg e).dailyLeadCounts = agg.dailyLeadCounts := by
  simp [processWeeklyEntry, hx]

theorem processWeeklyEntry_dailyLeadCounts_keys (agg : WeeklyAgg) (e : LeadEntry)
    (h : agg.dailyLeadCounts.keys = reportDays) :
    (processWeeklyEntry agg e).dailyLeadCounts.keys = reportDays := by
  unfold processWeeklyEntry
  by_cases hx : (dayOfWeek e.date).isReportDay = true
  · rw [if_pos hx]
    show (agg.dailyLeadCounts.set (dayOfWeek e.date) _).keys = _
    rw [JsMap.keys_set_of_mem]
    · exact h
    · rw [h]
      exact isReportDay_mem hx
  · rw [if_neg hx]
    exact h

theorem sumApplied_cons (u p : Nat) (x : ProgressUpdate) (xs : List ProgressUpdate) :
    sumApplied u p (x :: xs)
      = (if u = x.userId ∧ p = x.profileId then x.jobsApplied else 0) + sumApplied u p xs := by
  simp only [sumApplied, List.filter_cons]
  by_cases hc : u = x.userId ∧ p = x.profileId
  · have hb : (x.userId == u && x.profileId == p) = true := by
      simp [hc.1, hc.2]
    rw [hb]
    simp [hc]
  · have hb : (x.userId == u && x.profileId == p) = false := by
      rcases not_and_or.mp hc with h | h
      · have hn : x.userId ≠ u := fun e => h e.symm
        simp [hn]
      · have hn : x.profileId ≠ p := fun e => h e.symm
        simp [hn]
    rw [hb]
    simp [hc]

theorem sumAppliedOnDay_cons (d : Weekday) (u p : Nat) (x : ProgressUpdate)
    (xs : List ProgressUpdate) :
    sumAppliedOnDay d u p (x :: xs)
      = (if dayOfWeek x.date = d ∧ u = x.userId ∧ p = x.profileId
          then x.jobsApplied else 0) + sumAppliedOnDay d u p xs := by
  simp only [sumAppliedOnDay, List.filter_cons]
  by_cases hc : dayOfWeek x.date = d ∧ u = x.userId ∧ p = x.profileId
  · have hb : (dayOfWeek x.date == d && x.userId == u && x.profileId == p) = true := by
      simp [hc.1, hc.2.1, hc.2.2]
    rw [hb]
    simp [hc]
  · have hb : (dayOfWeek x.date == d && x.userId == u && x.profileId == p) = false := by
      rcases not_and_or.mp hc with h | h
      · simp [h]
      · rcases not_and_or.mp h with h2 | h2
        · have hn : x.userId ≠ u := fun e => h2 e.symm
          simp [hn]
        · have hn : x.profileId ≠ p := fun e => h2 e.symm
          simp [hn]
    rw [hb]
    simp [hc]

theorem sumLeadsOnDay_cons (d : Weekday) (p : Nat) (e : LeadEntry) (es : List LeadEntry) :
    sumLeadsOnDay d p (e :: es)
      = (if dayOfWeek e.date = d ∧ p = e.profileId then e.newLeads else 0)
        + sumLeadsOnDay d p es := by
  simp only [sumLeadsOnDay, List.filter_cons]
  by_cases hc : dayOfWeek e.date = d ∧ p = e.profileId
  · have hb : (dayOfWeek e.date == d && e.profileId == p) = true := by
      simp [hc.1, hc.2]
    rw [hb]
    simp [hc]
  · have hb : (dayOfWeek e.date == d && e.profileId == p) = false := by
      rcases not_and_or.mp hc with h | h
      · simp [h]
      · have hn : e.profileId ≠ p := fun he => h he.symm
        simp [hn]
    rw [hb]
    simp [hc]

theorem foldl_processWeeklyUpdate_lookup2 (ups : List ProgressUpdate) (agg : WeeklyAgg)
    (u p : Nat) :
    lookup2 (ups.foldl processWeeklyUpdate agg).userProfileMap u p
      = lookup2 agg.userProfileMap u p + sumApplied u p ups := by
  induction ups generalizing agg with
  | nil => simp [sumApplied]
  | cons x xs ih =>
      rw [List.foldl_cons, ih, processWeeklyUpdate_lookup2, sumApplied_cons]
      ring

theorem foldl_processWeeklyUpdate_lookup3 (ups : List ProgressUpdate) (agg : WeeklyAgg)
    (d : Weekday) (u p : Nat) (hd : d.isReportDay = true) :
    lookup3 (ups.foldl processWeeklyUpdate agg).userProfileDayMap d u p
      = lookup3 agg.userProfileDayMap d u p + sumAppliedOnDay d u p ups := by
  induction ups generalizing agg with
  | nil => simp [sumAppliedOnDay]
  | cons x xs ih =>
      rw [List.foldl_cons, ih, processWeeklyUpdate_lookup3 _ _ _ _ _ hd, sumAppliedOnDay_cons]
      ring

theorem foldl_processWeeklyUpdate_dailyLeadCounts (ups : List ProgressUpdate)
    (agg : WeeklyAgg) :
    (ups.foldl processWeeklyUpdate agg).dailyLeadCounts = agg.dailyLeadCounts := by
  induction ups generalizing agg with
  | nil => rfl
  | cons x xs ih =>
      rw [List.foldl_cons, ih, processWeeklyUpdate_dailyLeadCounts]

theorem foldl_processWeeklyUpdate_dayMap_keys (ups : List ProgressUpdate) (agg : WeeklyAgg)
    (h : agg.userProfileDayMap.keys = reportDays) :
    (ups.foldl processWeeklyUpdate agg).userProfileDayMap.keys = reportDays := by
  induction ups generalizing agg with
  | nil => exact h
  | cons x xs ih =>
      rw [List.foldl_cons]
      exact ih _ (processWeeklyUpdate_dayMap_keys _ _ h)

theorem foldl_processWeeklyEntry_userProfileMap (entries : List LeadEntry) (agg : WeeklyAgg) :
    (entries.foldl processWeeklyEntry agg).userProfileMap = agg.userProfileMap := by
  induction entries generalizing agg with
  | nil => rfl
  | cons e es ih =>
      rw [List.foldl_cons, ih, processWeeklyEntry_userProfileMap]

theorem foldl_processWeeklyEntry_dayMap (entries : List LeadEntry) (agg : WeeklyAgg) :
    (entries.foldl processWeeklyEntry agg).userProfileDayMap = agg.userProfileDayMap := by
  induction entries generalizing agg with
  | nil => rfl
  | cons e es ih =>
      rw [List.foldl_cons, ih, processWeeklyEntry_dayMap]

theorem foldl_processWeeklyEntry_lookupDay (entries : List LeadEntry) (agg : WeeklyAgg)
    (d : Weekday) (p : Nat) (hd : d.isReportDay = true) :
    lookupDay (entries.foldl processWeeklyEntry agg).dailyLeadCounts d p
      = lookupDay agg.dailyLeadCounts d p + sumLeadsOnDay d p entries := by
  induction entries generalizing agg with
  | nil => simp [sumLeadsOnDay]
  | cons e es ih =>
      rw [List.foldl_cons, ih, processWeeklyEntry_lookupDay _ _ _ _ hd, sumLeadsOnDay_cons]
      ring

theorem foldl_processWeeklyEntry_dailyLeadCounts_keys (entries : List LeadEntry)
    (agg : WeeklyAgg) (h : agg.dailyLeadCounts.keys = reportDays) :
    (entries.foldl processWeeklyEntry agg).dailyLeadCounts.keys = reportDays := by
  induction entries generalizing agg with
  | nil => exact h
  | cons e es ih =>
      rw [List.foldl_cons]
      exact ih _ (processWeeklyEntry_dailyLeadCounts_keys _ _ h)

theorem initWeeklyAgg_lookup2 (profiles : List Profile) (u p : Nat) :
    lookup2 (initWeeklyAgg profiles).userProfileMap u p = 0 := rfl

theorem initWeeklyAgg_lookup3 (profiles : List Profile) (d : Weekday) (u p : Nat) :
    lookup3 (initWeeklyAgg profiles).userProfileDayMap d u p = 0 := by
  cases d <;> rfl

theorem initWeeklyAgg_lookupDay (profiles : List Profile) (d : Weekday) (p : Nat) :
    lookupDay (initWeeklyAgg profiles).dailyLeadCounts d p = 0 := by
  cases d <;> rfl

theorem initWeeklyAgg_dayMap_keys (profiles : List Profile) :
    (initWeeklyAgg profiles).userProfileDayMap.keys = reportDays := rfl

theorem initWeeklyAgg_dailyLeadCounts_keys (profiles : List Profile) :
    (initWeeklyAgg profiles).dailyLeadCounts.keys = reportDays := rfl

/-- C1: in `generateWeeklySalesReport`, progress updates group by user and
profile (summing `jobsApplied` per (userId, profileId) pair and per
(weekday, userId, profileId) triple), lead entries group by weekday and
profile (summing `newLeads`), a record dated on Saturday or Sunday
contributes nothing to the per-weekday maps, and the keys of those maps are
exactly Monday through Friday. -/
theorem weeklyReport_grouping_correct (profiles : List Profile) (ups : List ProgressUpdate)
    (entries : List LeadEntry) (u p : Nat) (d : Weekday) (x : ProgressUpdate) (e : LeadEntry)
    (hd : d.isReportDay = true)
    (hx : (dayOfWeek x.date).isReportDay = false)
    (he : (dayOfWeek e.date).isReportDay = false) :
    lookup2 (weeklyAggregate profiles ups entries).userProfileMap u p = sumApplied u p ups
    ∧ lookup3 (weeklyAggregate profiles ups entries).userProfileDayMap d u p
        = sumAppliedOnDay d u p ups
    ∧ lookupDay (weeklyAggregate profiles ups entries).dailyLeadCounts d p
        = sumLeadsOnDay d p entries
    ∧ (weeklyAggregate profiles ups entries).userProfileDayMap.keys = reportDays
    ∧ (weeklyAggregate profiles ups entries).dailyLeadCounts.keys = reportDays
    ∧ (weeklyAggregate profiles (ups ++ [x]) entries).userProfileDayMap
        = (weeklyAggregate profiles ups entries).userProfileDayMap
    ∧ (weeklyAggregate profiles ups (entries ++ [e])).dailyLeadCounts
        = (weeklyAggregate profiles ups entries).dailyLeadCounts := by
  unfold weeklyAggregate
  refine ⟨?_, ?_, ?_, ?_, ?_, ?_, ?_⟩
  · rw [foldl_processWeeklyEntry_userProfileMap, foldl_processWeeklyUpdate_lookup2,
      initWeeklyAgg_lookup2, zero_add]
  · rw [foldl_processWeeklyEntry_dayMap, foldl_processWeeklyUpdate_lookup3 _ _ _ _ _ hd,
      initWeeklyAgg_lookup3, zero_add]
  · rw [foldl_processWeeklyEntry_lookupDay _ _ _ _ hd,
      foldl_processWeeklyUpdate_dailyLeadCounts, initWeeklyAgg_lookupDay, zero_add]
  · rw [foldl_processWeeklyEntry_dayMap]
    exact foldl_processWeeklyUpdate_dayMap_keys _ _ (initWeeklyAgg_dayMap_keys profiles)
  · refine foldl_processWeeklyEntry_dailyLeadCounts_keys _ _ ?_
    rw [foldl_processWeeklyUpdate_dailyLeadCounts]
    exact initWeeklyAgg_dailyLeadCounts_keys profiles
  · rw [foldl_processWeeklyEntry_dayMap, foldl_processWeeklyEntry_dayMap, List.foldl_append]
    show (processWeeklyUpdate (ups.foldl processWeeklyUpdate (initWeeklyAgg profiles)) x).userProfileDayMap = _
    rw [processWeeklyUpdate_dayMap_of_weekend _ _ hx]
  · rw [List.foldl_append]
    show (processWeeklyEntry (entries.foldl processWeeklyEntry _) e).dailyLeadCounts = _
    rw [processWeeklyEntry_dailyLeadCounts_of_weekend _ _ he]

/-- A Monday progress update used as a concrete observation point. -/
def wUpMon : ProgressUpdate := ⟨1, 1, 1, 4, 3, 5, none⟩

/-- A Monday lead entry used as a concrete observation point. -/
def wEnMon : LeadEntry := ⟨1, 4, 1, 4, 7, 0, 0, none⟩

/-- A Saturday progress update (day 2 is a Saturday). -/
def wUpSat : ProgressUpdate := ⟨2, 1, 1, 2, 1, 9, none⟩

/-- A Saturday lead entry. -/
def wEnSat : LeadEntry := ⟨2, 4, 1, 2, 3, 0, 0, none⟩

/-- Witness for C1 at concrete inputs. -/
theorem weeklyReport_grouping_correct_witness :
    lookup2 (weeklyAggregate [] [wUpMon] [wEnMon]).userProfileMap 1 1 = 5
    ∧ lookup3 (weeklyAggregate [] [wUpMon] [wEnMon]).userProfileDayMap Weekday.monday 1 1 = 5
    ∧ lookupDay (weeklyAggregate [] [wUpMon] [wEnMon]).dailyLeadCounts Weekday.monday 1 = 7
    ∧ (weeklyAggregate [] [wUpMon] [wEnMon]).userProfileDayMap.keys = reportDays
    ∧ (weeklyAggregate [] ([wUpMon] ++ [wUpSat]) [wEnMon]).userProfileDayMap
        = (weeklyAggregate [] [wUpMon] [wEnMon]).userProfileDayMap := by
  have h := weeklyReport_grouping_correct [] [wUpMon] [wEnMon] 1 1 Weekday.monday
    wUpSat wEnSat (by decide) (by decide) (by decide)
  refine ⟨?_, ?_, ?_, h.2.2.2.1, h.2.2.2.2.2.1⟩
  · rw [h.1]
    decide
  · rw [h.2.1]
    decide
  · rw [h.2.2.1]
    decide

/-!
Lemmas for the daily report grouping.
-/

/-- The fetched count recorded for a user (0 when absent). -/
def aggFetched (m : JsMap Nat DailyUserData) (u : Nat) : Int :=
  match m.get u with
  | some d => d.jobsFetched
  | none => 0

/-- The applied count recorded for a user (0 when absent). -/
def aggApplied (m : JsMap Nat DailyUserData) (u : Nat) : Int :=
  match m.get u with
  | some d => d.jobsApplied
  | none => 0

/-- Sum of `jobsFetched` over the updates of one user. -/
def sumFetchedByUser (u : Nat) (ups : List ProgressUpdate) : Int :=
  ((ups.filter (fun x => x.userId == u)).map (fun x => x.jobsFetched)).sum

/-- Sum of `jobsApplied` over the updates of one user. -/
def sumAppliedByUser (u : Nat) (ups : List ProgressUpdate) : Int :=
  ((ups.filter (fun x => x.userId == u)).map (fun x => x.jobsApplied)).sum

theorem processDailyUpdate_get_ne (profiles : List Profile) (m : JsMap Nat DailyUserData)
    (x : ProgressUpdate) {u : Nat} (h : u ≠ x.userId) :
    (processDailyUpdate profiles m x).get u = m.get u := by
  unfold processDailyUpdate
  cases hg : m.get x.userId with
  | none =>
      simp only [hg]
      rw [JsMap.get_set_self]
      rw [JsMap.get_set_ne _ _ h, JsMap.get_set_ne _ _ h]
  | some dd =>
      simp only [hg]
      rw [JsMap.get_set_ne _ _ h]

theorem processDailyUpdate_fetched_self (profiles : List Profile)
    (m : JsMap Nat DailyUserData) (x : ProgressUpdate) :
    aggFetched (processDailyUpdate profiles m x) x.userId
      = aggFetched m x.userId + x.jobsFetched := by
  unfold processDailyUpdate aggFetched
  cases hg : m.get x.userId with
  | none =>
      simp only [hg]
      rw [JsMap.get_set_self]
      simp only [JsMap.get_set_self]
  | some dd =>
      simp only [hg]
      simp only [JsMap.get_set_self]

theorem processDailyUpdate_applied_self (profiles : List Profile)
    (m : JsMap Nat DailyUserData) (x : ProgressUpdate) :
    aggApplied (processDailyUpdate profiles m x) x.userId
      = aggApplied m x.userId + x.jobsApplied := by
  unfold processDailyUpdate aggApplied
  cases hg : m.get x.userId with
  | none =>
      simp only [hg]
      rw [JsMap.get_set_self]
      simp only [JsMap.get_set_self]
  | some dd =>
      simp only [hg]
      simp only [JsMap.get_set_self]

theorem processDailyUpdate_get_self_isSome (profiles : List Profile)
    (m : JsMap Nat DailyUserData) (x : ProgressUpdate) :
    ((processDailyUpdate profiles m x).get x.userId).isSome = true := by
  unfold processDailyUpdate
  cases hg : m.get x.userId with
  | none =>
      simp only [hg]
      rw [JsMap.get_set_self]
      simp only [JsMap.get_set_self]
      rfl
  | some dd =>
      simp only [hg]
      simp only [JsMap.get_set_self]
      rfl

theorem processDailyUpdate_get_none_iff (profiles : List Profile)
    (m : JsMap Nat DailyUserData) (x : ProgressUpdate) (u : Nat) :
    (processDailyUpdate profiles m x).get u = none ↔ m.get u = none ∧ x.userId ≠ u := by
  by_cases h : u = x.userId
  · subst h
    constructor
    · intro hnone
      have hs := processDailyUpdate_get_self_isSome profiles m x
      rw [hnone] at hs
      simp at hs
    · rintro ⟨h1, h2⟩
      exact absurd rfl h2
  · rw [processDailyUpdate_get_ne _ _ _ h]
    have hne : x.userId ≠ u := fun e => h e.symm
    simp [hne]

theorem sumFetchedByUser_cons (u : Nat) (x : ProgressUpdate) (xs : List ProgressUpdate) :
    sumFetchedByUser u (x :: xs)
      = (if u = x.userId then x.jobsFetched else 0) + sumFetchedByUser u xs := by
  simp only [sumFetchedByUser, List.filter_cons]
  by_cases hc : u = x.userId
  · have hb : (x.userId == u) = true := by simp [hc]
    rw [hb]
    simp [hc]
  · have hn : x.userId ≠ u := fun e => hc e.symm
    have hb : (x.userId == u) = false := by simp [hn]
    rw [hb]
    simp [hc]

theorem sumAppliedByUser_cons (u : Nat) (x : ProgressUpdate) (xs : List ProgressUpdate) :
    sumAppliedByUser u (x :: xs)
      = (if u = x.userId then x.jobsApplied else 0) + sumAppliedByUser u xs := by
  simp only [sumAppliedByUser, List.filter_cons]
  by_cases hc : u = x.userId
  · have hb : (x.userId == u) = true := by simp [hc]
    rw [hb]
    simp [hc]
  · have hn : x.userId ≠ u := fun e => hc e.symm
    have hb : (x.userId == u) = false := by simp [hn]
    rw [hb]
    simp [hc]

theorem processDailyUpdate_fetched (profiles : List Profile) (m : JsMap Nat DailyUserData)
    (x : ProgressUpdate) (u : Nat) :
    aggFetched (processDailyUpdate profiles m x) u
      = aggFetched m u + (if u = x.userId then x.jobsFetched else 0) := by
  by_cases h : u = x.userId
  · subst h
    rw [processDailyUpdate_fetched_self]
    simp
  · rw [show aggFetched (processDailyUpdate profiles m x) u
        = aggFetched m u from by
      unfold aggFetched
      rw [processDailyUpdate_get_ne _ _ _ h]]
    simp [h]

theorem processDailyUpdate_applied (profiles : List Profile) (m : JsMap Nat DailyUserData)
    (x : ProgressUpdate) (u : Nat) :
    aggApplied (processDailyUpdate profiles m x) u
      = aggApplied m u + (if u = x.userId then x.jobsApplied else 0) := by
  by_cases h : u = x.userId
  · subst h
    rw [processDailyUpdate_applied_self]
    simp
  · rw [show aggApplied (processDailyUpdate profiles m x) u
        = aggApplied m u from by
      unfold aggApplied
      rw [processDailyUpdate_get_ne _ _ _ h]]
    simp [h]

theorem foldl_processDailyUpdate_fetched (ups : List ProgressUpdate) (profiles : List Profile)
    (m : JsMap Nat DailyUserData) (u : Nat) :
    aggFetched (ups.foldl (processDailyUpdate profiles) m) u
      = aggFetched m u + sumFetchedByUser u ups := by
  induction ups generalizing m with
  | nil => simp [sumFetchedByUser]
  | cons x xs ih =>
      rw [List.foldl_cons, ih, processDailyUpdate_fetched, sumFetchedByUser_cons]
      ring

theorem foldl_processDailyUpdate_applied (ups : List ProgressUpdate) (profiles : List Profile)
    (m : JsMap Nat DailyUserData) (u : Nat) :
    aggApplied (ups.foldl (processDailyUpdate profiles) m) u
      = aggApplied m u + sumAppliedByUser u ups := by
  induction ups generalizing m with
  | nil => simp [sumAppliedByUser]
  | cons x xs ih =>
      rw [List.foldl_cons, ih, processDailyUpdate_applied, sumAppliedByUser_cons]
      ring

theorem foldl_processDailyUpdate_get_none (ups : List ProgressUpdate)
    (profiles : List Profile) (m : JsMap Nat DailyUserData) (u : Nat) :
    (ups.foldl (processDailyUpdate profiles) m).get u = none
      ↔ m.get u = none ∧ ∀ x ∈ ups, x.userId ≠ u := by
  induction ups generalizing m with
  | nil => simp
  | cons x xs ih =>
      rw [List.foldl_cons, ih, processDailyUpdate_get_none_iff]
      constructor
      · rintro ⟨⟨h1, h2⟩, h3⟩
        refine ⟨h1, ?_⟩
        intro y hy
        rcases List.mem_cons.mp hy with e | mhy
        · rw [e]
          exact h2
        · exact h3 y mhy
      · rintro ⟨h1, h2⟩
        refine ⟨⟨h1, h2 x (List.mem_cons_self x xs)⟩, ?_⟩
        intro y hy
        exact h2 y (List.mem_cons_of_mem x hy)

theorem dailyRowsFrom_length (m : JsMap Nat DailyUserData) :
    ∀ (j : Nat) (us : List User), (dailyRowsFrom m j us).length = us.length := by
  intro j us
  induction us generalizing j with
  | nil => rfl
  | cons u us ih => simp [dailyRowsFrom, ih]

theorem dailyRowsFrom_get? (m : JsMap Nat DailyUserData) :
    ∀ (us : List User) (j i : Nat),
      (dailyRowsFrom m j us).get? i = (us.get? i).map (mkDailyRow m (j + i)) := by
  intro us
  induction us with
  | nil => intro j i; simp [dailyRowsFrom]
  | cons u us ih =>
      intro j i
      cases i with
      | zero => simp [dailyRowsFrom]
      | succ n =>
          have hidx : j + 1 + n = j + (n + 1) := by omega
          simp only [dailyRowsFrom, List.get?_cons_succ, ih (j + 1) n, hidx]

theorem mkDailyRow_noData (m : JsMap Nat DailyUserData) (i : Nat) (u : User)
    (h : m.get u.id = none) : (mkDailyRow m i u).profileName = "No data" := by
  unfold mkDailyRow
  simp [h]

/-- C2: `generateDailyReport` groups the day's updates by user (summing
`jobsFetched` and `jobsApplied`), emits one row per lead-gen user in order, a
user with no updates gets zeros and the profile cell "No data", and the
completion cell is the percentage to one decimal place when `jobsFetched` is
positive and "0%" when it is zero. -/
theorem dailyReport_rows_correct (s : MemStorage) (date : Nat) (i : Nat) (u : User)
    (row : DailyRow)
    (hu : (s.getUsers (some Role.lead_gen)).get? i = some u)
    (hrow : (generateDailyReport s date).rows.get? i = some row) :
    (generateDailyReport s date).rows.length = (s.getUsers (some Role.lead_gen)).length
    ∧ row.serial = i + 1
    ∧ row.employeeName = u.name
    ∧ row.jobsFetched = sumFetchedByUser u.id (s.getProgressUpdates none (some date) (some date))
    ∧ row.jobsApplied = sumAppliedByUser u.id (s.getProgressUpdates none (some date) (some date))
    ∧ ((∀ x ∈ s.getProgressUpdates none (some date) (some date), x.userId ≠ u.id) →
        row.jobsFetched = 0 ∧ row.jobsApplied = 0 ∧ row.profileName = "No data")
    ∧ (0 < row.jobsFetched →
        row.completion = toFixed1Frac (row.jobsApplied * 100) row.jobsFetched ++ "%")
    ∧ (row.jobsFetched = 0 → row.completion = "0%") := by
  have hr : row = mkDailyRow
      (dailyAggregate s.getProfiles (s.getProgressUpdates none (some date) (some date))) i u := by
    have h2 : (generateDailyReport s date).rows.get? i
        = ((s.getUsers (some Role.lead_gen)).get? i).map
            (mkDailyRow (dailyAggregate s.getProfiles
              (s.getProgressUpdates none (some date) (some date))) (0 + i)) :=
      dailyRowsFrom_get? _ _ 0 i
    rw [hrow, hu] at h2
    simp at h2
    rw [h2]
  subst hr
  refine ⟨?_, rfl, rfl, ?_, ?_, ?_, ?_, ?_⟩
  · exact dailyRowsFrom_length _ 0 _
  · show aggFetched (dailyAggregate s.getProfiles
      (s.getProgressUpdates none (some date) (some date))) u.id = _
    show aggFetched ((s.getProgressUpdates none (some date) (some date)).foldl
      (processDailyUpdate s.getProfiles) []) u.id = _
    rw [foldl_processDailyUpdate_fetched]
    simp [aggFetched, JsMap.get]
  · show aggApplied (dailyAggregate s.getProfiles
      (s.getProgressUpdates none (some date) (some date))) u.id = _
    show aggApplied ((s.getProgressUpdates none (some date) (some date)).foldl
      (processDailyUpdate s.getProfiles) []) u.id = _
    rw [foldl_processDailyUpdate_applied]
    simp [aggApplied, JsMap.get]
  · intro hnone
    have hget : (dailyAggregate s.getProfiles
        (s.getProgressUpdates none (some date) (some date))).get u.id = none := by
      show ((s.getProgressUpdates none (some date) (some date)).foldl
        (processDailyUpdate s.getProfiles) []).get u.id = none
      rw [foldl_processDailyUpdate_get_none]
      exact ⟨rfl, hnone⟩
    refine ⟨?_, ?_, mkDailyRow_noData _ _ _ hget⟩
    · show aggFetched _ u.id = 0
      unfold aggFetched
      rw [hget]
    · show aggApplied _ u.id = 0
      unfold aggApplied
      rw [hget]
  · intro hpos
    have hpos2 : aggFetched (dailyAggregate s.getProfiles
        (s.getProgressUpdates none (some date) (some date))) u.id > 0 := hpos
    show completionCell (aggFetched _ u.id) (aggApplied _ u.id) = _
    unfold completionCell
    rw [if_pos hpos2]
    rfl
  · intro hzero
    have hz : aggFetched (dailyAggregate s.getProfiles
        (s.getProgressUpdates none (some date) (some date))) u.id = 0 := hzero
    show completionCell (aggFetched _ u.id) (aggApplied _ u.id) = "0%"
    unfold completionCell
    rw [hz]
    simp

/-- The second default user (a lead_gen user) of the seeded storage. -/
def leadGenUser1 : User :=
  ⟨2, "leadgen1", "password123", "Lead Gen User 1", "leadgen1@example.com", Role.lead_gen⟩

/-- Seeded storage plus one progress update of user 2 on day 20. -/
def dailyWitnessStorage : MemStorage :=
  (initialStorage.createProgressUpdate ⟨2, 1, 20, 10, 5, none⟩).2

/-- The daily-report row expected for user 2 in `dailyWitnessStorage`. -/
def dailyWitnessRow : DailyRow :=
  ⟨1, "Lead Gen User 1", "Software Engineer", 10, 5, "50.0%"⟩

/-- Witness for C2 at a concrete storage and date. -/
theorem dailyReport_rows_correct_witness :
    (generateDailyReport dailyWitnessStorage 20).rows.length = 2
    ∧ dailyWitnessRow.employeeName = leadGenUser1.name
    ∧ dailyWitnessRow.completion
        = toFixed1Frac (dailyWitnessRow.jobsApplied * 100) dailyWitnessRow.jobsFetched ++ "%" := by
  have h := dailyReport_rows_correct dailyWitnessStorage 20 0 leadGenUser1 dailyWitnessRow
    (by rfl) (by rfl)
  refine ⟨?_, h.2.2.1, h.2.2.2.2.2.2.1 (by decide)⟩
  rw [h.1]
  rfl

/-!
Claims about the POST create endpoints.
-/

/-- The `storage.createProfile` call of `POST /api/profiles`. -/
def profileCreateOp (d : MemStorage.InsertProfile) (s : MemStorage) :
    Except Unit (Profile × MemStorage) :=
  Except.ok (s.createProfile d)

/-- The `storage.createLeadGenAssignment` call of `POST /api/lead-gen-assignments`. -/
def leadGenAssignmentCreateOp (d : Nat × Nat) (s : MemStorage) :
    Except Unit (LeadGenAssignment × MemStorage) :=
  Except.ok (s.createLeadGenAssignment d.1 d.2)

/-- The `storage.createSalesAssignment` call of `POST /api/sales-assignments`. -/
def salesAssignmentCreateOp (d : Nat × Nat) (s : MemStorage) :
    Except Unit (SalesAssignment × MemStorage) :=
  Except.ok (s.createSalesAssignment d.1 d.2)

/-- The `storage.createTarget` call of `POST /api/targets`. -/
def targetCreateOp (d : MemStorage.InsertTarget) (s : MemStorage) :
    Except Unit (Target × MemStorage) :=
  Except.ok (s.createTarget d)

/-- A progress-update body whose userId and profileId point at other records. -/
def cexProgressBody : MemStorage.InsertProgressUpdate := ⟨7, 9, 20, 1, 1, none⟩

/-- C3 counterexample: with a schema that accepts every body,
`POST /api/progress-updates` still answers 400 with no created record for a
lead_gen user without an assigned profile, so a schema-accepted body does not
always yield 201 with the created record. -/
theorem postCreate_201_claim_counterexample :
    (postProgressUpdates (fun _ => true) progressCreateOp leadGenUser1 cexProgressBody
      initialStorage).1 = 400
    ∧ (postProgressUpdates (fun _ => true) progressCreateOp leadGenUser1 cexProgressBody
      initialStorage).2.2 = none :=
  ⟨rfl, rfl⟩

/-- C3 (amended): a schema-rejected body yields 400 without invoking the
storage create call and leaves the state unchanged; a thrown storage error
yields 500; a schema-accepted body yields 201 with the created record,
provided the assignment guards of the progress-update and lead-entry
endpoints pass (those guards answer 400 before validation otherwise). -/
theorem postCreate_validation_and_errors :
    (∀ (α β : Type) (validate : α → Bool)
        (create : α → MemStorage → Except Unit (β × MemStorage)) (body : α) (s : MemStorage),
        validate body = false → postCreate validate create body s = (400, s, none))
    ∧ (∀ (α β : Type) (validate : α → Bool)
        (create : α → MemStorage → Except Unit (β × MemStorage)) (body : α) (s : MemStorage),
        validate body = true → create body s = Except.error () →
        postCreate validate create body s = (500, s, none))
    ∧ (∀ (α β : Type) (validate : α → Bool)
        (create : α → MemStorage → Except Unit (β × MemStorage)) (body : α) (s : MemStorage)
        (r : β) (s2 : MemStorage),
        validate body = true → create body s = Except.ok (r, s2) →
        postCreate validate create body s = (201, s2, some r))
    ∧ (∀ (validate : MemStorage.InsertProfile → Bool) (body : MemStorage.InsertProfile)
        (s : MemStorage), validate body = true →
        postCreate validate profileCreateOp body s
          = (201, (s.createProfile body).2, some (s.createProfile body).1))
    ∧ (∀ (validate : Nat × Nat → Bool) (body : Nat × Nat) (s : MemStorage),
        validate body = true →
        postCreate validate leadGenAssignmentCreateOp body s
          = (201, (s.createLeadGenAssignment body.1 body.2).2,
              some (s.createLeadGenAssignment body.1 body.2).1))
    ∧ (∀ (validate : Nat × Nat → Bool) (body : Nat × Nat) (s : MemStorage),
        validate body = true →
        postCreate validate salesAssignmentCreateOp body s
          = (201, (s.createSalesAssignment body.1 body.2).2,
              some (s.createSalesAssignment body.1 body.2).1))
    ∧ (∀ (validate : MemStorage.InsertTarget → Bool) (body : MemStorage.InsertTarget)
        (s : MemStorage), validate body = true →
        postCreate validate targetCreateOp body s
          = (201, (s.createTarget body).2, some (s.createTarget body).1))
    ∧ (∀ validate create (user : User) body (s : MemStorage),
        s.getUserAssignedProfile user.id = none →
        postProgressUpdates validate create user body s = (400, s, none))
    ∧ (∀ validate create (user : User) body (s : MemStorage) (p : Profile) (t : Option Target),
        s.getUserAssignedProfile user.id = some (p, t) →
        validate { body with userId := user.id, profileId := p.id } = false →
        postProgressUpdates validate create user body s = (400, s, none))
    ∧ (∀ validate create (user : User) body (s : MemStorage) (p : Profile) (t : Option Target)
        (r : ProgressUpdate) (s2 : MemStorage),
        s.getUserAssignedProfile user.id = some (p, t) →
        validate { body with userId := user.id, profileId := p.id } = true →
        create { body with userId := user.id, profileId := p.id } s = Except.ok (r, s2) →
        postProgressUpdates validate create user body s = (201, s2, some r))
    ∧ (∀ validate create (user : User) body (s : MemStorage),
        ((s.getUserAssignedProfiles user.id).map (fun p => p.id)).contains body.profileId
          = false →
        postLeadEntries validate create user body s = (400, s, none))
    ∧ (∀ validate create (user : User) body (s : MemStorage),
        ((s.getUserAssignedProfiles user.id).map (fun p => p.id)).contains body.profileId
          = true →
        validate { body with userId := user.id } = false →
        postLeadEntries validate create user body s = (400, s, none))
    ∧ (∀ validate create (user : User) body (s : MemStorage) (r : LeadEntry) (s2 : MemStorage),
        ((s.getUserAssignedProfiles user.id).map (fun p => p.id)).contains body.profileId
          = true →
        validate { body with userId := user.id } = true →
        create { body with userId := user.id } s = Except.ok (r, s2) →
        postLeadEntries validate create user body s = (201, s2, some r)) := by
  refine ⟨?_, ?_, ?_, ?_, ?_, ?_, ?_, ?_, ?_, ?_, ?_, ?_, ?_⟩
  · intro α β validate create body s h
    simp [postCreate, h]
  · intro α β validate create body s h1 h2
    simp [postCreate, h1, h2]
  · intro α β validate create body s r s2 h1 h2
    simp [postCreate, h1, h2]
  · intro validate body s h
    simp [postCreate, h, profileCreateOp]
  · intro validate body s h
    simp [postCreate, h, leadGenAssignmentCreateOp]
  · intro validate body s h
    simp [postCreate, h, salesAssignmentCreateOp]
  · intro validate body s h
    simp [postCreate, h, targetCreateOp]
  · intro validate create user body s h
    simp [postProgressUpdates, h]
  · intro validate create user body s p t h1 h2
    simp [postProgressUpdates, h1, h2]
  · intro validate create user body s p t r s2 h1 h2 h3
    simp [postProgressUpdates, h1, h2, h3]
  · intro validate create user body s h
    have h' : ¬ (((s.getUserAssignedProfiles user.id).map (fun p => p.id)).contains
        body.profileId = true) := by
      rw [h]
      simp
    simp only [postLeadEntries]
    rw [if_neg h']
  · intro validate create user body s h1 h2
    simp only [postLeadEntries]
    rw [if_pos h1]
    simp [h2]
  · intro validate create user body s r s2 h1 h2 h3
    simp only [postLeadEntries]
    rw [if_pos h1]
    simp [h2, h3]

/-- Seeded storage where lead_gen user 2 is assigned profile 1. -/
def assignedStorage : MemStorage := (initialStorage.createLeadGenAssignment 2 1).2

/-- Witness for C3 at concrete inputs. -/
theorem postCreate_validation_and_errors_witness :
    postCreate (fun _ : Nat => false) (fun _ s => Except.ok (0, s)) 0 initialStorage
        = (400, initialStorage, none)
    ∧ postCreate (fun _ : Nat => true)
        (fun _ _ => (Except.error () : Except Unit (Nat × MemStorage))) 0 initialStorage
        = (500, initialStorage, none)
    ∧ postCreate (fun _ => true) profileCreateOp
        ⟨"P", "D", "resume", none, none, none⟩ initialStorage
        = (201, (initialStorage.createProfile ⟨"P", "D", "resume", none, none, none⟩).2,
            some (initialStorage.createProfile ⟨"P", "D", "resume", none, none, none⟩).1)
    ∧ postProgressUpdates (fun _ => true) progressCreateOp leadGenUser1 cexProgressBody
        assignedStorage
        = (201, (assignedStorage.createProgressUpdate ⟨2, 1, 20, 1, 1, none⟩).2,
            some (assignedStorage.createProgressUpdate ⟨2, 1, 20, 1, 1, none⟩).1) := by
  obtain ⟨h1, h2, h3, h4, h5, h6, h7, h8, h9, h10, h11, h12, h13⟩ :=
    postCreate_validation_and_errors
  refine ⟨?_, ?_, ?_, ?_⟩
  · exact h1 Nat Nat _ _ 0 initialStorage rfl
  · exact h2 Nat Nat _ _ 0 initialStorage rfl rfl
  · exact h4 _ _ initialStorage rfl
  · exact h10 (fun _ => true) progressCreateOp leadGenUser1 cexProgressBody assignedStorage
      ⟨1, "Software Engineer",
        "Full-stack developer with 5 years of experience in React, Node.js, and AWS.",
        some "resume", none, none, none⟩ none
      (assignedStorage.createProgressUpdate ⟨2, 1, 20, 1, 1, none⟩).1
      (assignedStorage.createProgressUpdate ⟨2, 1, 20, 1, 1, none⟩).2
      (by rfl) rfl (by rfl)

/-!
Claim about the role middleware.
-/

/-- C4: `hasRole` answers 401 to unauthenticated requests, 403 to
authenticated requests whose role is not allowed, and passes a request to the
handler exactly when the user's role is allowed; in particular a lead_gen or
sales user never reaches a manager-only handler. -/
theorem hasRole_access_control :
    (∀ roles : List Role, hasRole roles none = GuardResult.unauthorized)
    ∧ (∀ (roles : List Role) (u : User), roles.contains u.role = false →
        hasRole roles (some u) = GuardResult.forbidden)
    ∧ (∀ (roles : List Role) (u : User),
        hasRole roles (some u) = GuardResult.allowed u ↔ roles.contains u.role = true)
    ∧ (∀ (u : User) (β : Type) (handler : User → β) (r401 r403 : β),
        u.role = Role.lead_gen ∨ u.role = Role.sales →
        dispatch [Role.manager] handler r401 r403 (some u) = r403) := by
  refine ⟨?_, ?_, ?_, ?_⟩
  · intro roles
    rfl
  · intro roles u h
    have h' : ¬ (roles.contains u.role = true) := by
      rw [h]
      simp
    simp only [hasRole]
    rw [if_neg h']
  · intro roles u
    simp only [hasRole]
    by_cases hcc : roles.contains u.role = true
    · rw [if_pos hcc]
      exact ⟨fun _ => hcc, fun _ => rfl⟩
    · rw [if_neg hcc]
      constructor
      · intro hfalse
        simp at hfalse
      · intro ht
        exact absurd ht hcc
  · intro u β handler r401 r403 h
    have hrole : ¬ ([Role.manager].contains u.role = true) := by
      rcases h with h | h <;> rw [h] <;> decide
    simp only [dispatch, hasRole]
    rw [if_neg hrole]

/-- A sales user for concrete witnesses. -/
def salesUser1 : User :=
  ⟨4, "sales1", "password123", "Sales User 1", "sales1@example.com", Role.sales⟩

/-- Witness for C4 at concrete inputs. -/
theorem hasRole_access_control_witness :
    hasRole [Role.manager] none = GuardResult.unauthorized
    ∧ hasRole [Role.manager] (some leadGenUser1) = GuardResult.forbidden
    ∧ dispatch [Role.manager] (fun _ => (200 : Nat)) 401 403 (some salesUser1) = 403 := by
  obtain ⟨h1, h2, h3, h4⟩ := hasRole_access_control
  refine ⟨h1 [Role.manager], ?_, ?_⟩
  · exact h2 [Role.manager] leadGenUser1 (by decide)
  · exact h4 salesUser1 Nat (fun _ => 200) 401 403 (Or.inr rfl)

/-!
Claim about determinism of the report generators.
-/

/-- C8: the report generators are pure functions of the storage state and the
date arguments, so two runs on equal states and dates produce identical
documents. -/
theorem report_generation_deterministic :
    ∀ (s1 s2 : MemStorage) (fromDate toDate date : Nat), s1 = s2 →
      generateWeeklySalesReport s1 fromDate toDate = generateWeeklySalesReport s2 fromDate toDate
      ∧ generateDailyReport s1 date = generateDailyReport s2 date
      ∧ formatReportDateRange fromDate toDate = formatReportDateRange fromDate toDate := by
  intro s1 s2 fromDate toDate date h
  subst h
  exact ⟨rfl, rfl, rfl⟩

/-- Witness for C8 at a concrete state and dates. -/
theorem report_generation_deterministic_witness :
    generateWeeklySalesReport dailyWitnessStorage 18 22
      = generateWeeklySalesReport dailyWitnessStorage 18 22
    ∧ generateDailyReport dailyWitnessStorage 20 = generateDailyReport dailyWitnessStorage 20
    ∧ formatReportDateRange 18 22 = formatReportDateRange 18 22 :=
  report_generation_deterministic dailyWitnessStorage dailyWitnessStorage 18 22 20 rfl

/-!
Claim about `deleteProfile` and referential integrity.
-/

/-- Some stored record references the given profile id. -/
def referencesProfile (s : MemStorage) (id : Nat) : Prop :=
  (∃ a ∈ s.leadGenAssignments, a.profileId = id)
  ∨ (∃ a ∈ s.salesAssignments, a.profileId = id)
  ∨ (∃ t ∈ s.targets, t.profileId = id)
  ∨ (∃ u ∈ s.progressUpdates, u.profileId = id)
  ∨ (∃ e ∈ s.leadEntries, e.profileId = id)

instance (s : MemStorage) (id : Nat) : Decidable (referencesProfile s id) := by
  unfold referencesProfile
  infer_instance

/-- Every profileId stored in any record names an existing profile. -/
def noDanglingRefs (s : MemStorage) : Prop :=
  (∀ a ∈ s.leadGenAssignments, ∃ p ∈ s.profiles, p.id = a.profileId)
  ∧ (∀ a ∈ s.salesAssignments, ∃ p ∈ s.profiles, p.id = a.profileId)
  ∧ (∀ t ∈ s.targets, ∃ p ∈ s.profiles, p.id = t.profileId)
  ∧ (∀ u ∈ s.progressUpdates, ∃ p ∈ s.profiles, p.id = u.profileId)
  ∧ (∀ e ∈ s.leadEntries, ∃ p ∈ s.profiles, p.id = e.profileId)

theorem length_pos_filter_iff {α : Type} (p : α → Bool) (l : List α) :
    (l.filter p).length > 0 ↔ ∃ x ∈ l, p x = true := by
  constructor
  · intro h
    cases hf : l.filter p with
    | nil =>
        rw [hf] at h
        simp at h
    | cons y ys =>
        have hy : y ∈ l.filter p := by
          rw [hf]
          exact List.mem_cons_self y ys
        rcases List.mem_filter.mp hy with ⟨h1, h2⟩
        exact ⟨y, h1, h2⟩
  · rintro ⟨x, hx, hp⟩
    have hmem := List.mem_filter.mpr ⟨hx, hp⟩
    cases hf : l.filter p with
    | nil =>
        rw [hf] at hmem
        simp at hmem
    | cons y ys =>
        simp

theorem deleteProfile_cond_iff (s : MemStorage) (id : Nat) :
    ((s.leadGenAssignments.filter (fun a => a.profileId == id)).length > 0
      ∨ (s.salesAssignments.filter (fun a => a.profileId == id)).length > 0
      ∨ (s.targets.filter (fun t => t.profileId == id)).length > 0
      ∨ (s.progressUpdates.filter (fun u => u.profileId == id)).length > 0
      ∨ (s.leadEntries.filter (fun e => e.profileId == id)).length > 0)
      ↔ referencesProfile s id := by
  unfold referencesProfile
  simp [length_pos_filter_iff]

theorem deleteByKey_fst_iff {α : Type} (key : α → Nat) (l : List α) (k : Nat) :
    (deleteByKey key l k).1 = true ↔ ∃ x ∈ l, key x = k := by
  induction l with
  | nil => simp [deleteByKey]
  | cons y ys ih =>
      by_cases h : key y = k
      · simp only [deleteByKey, if_pos h]
        constructor
        · intro _
          exact ⟨y, List.mem_cons_self y ys, h⟩
        · intro _
          trivial
      · simp only [deleteByKey, if_neg h]
        rw [ih]
        constructor
        · rintro ⟨x, hx, hk⟩
          exact ⟨x, List.mem_cons_of_mem y hx, hk⟩
        · rintro ⟨x, hx, hk⟩
          rcases List.mem_cons.mp hx with e | m
          · exact absurd (e ▸ hk) h
          · exact ⟨x, m, hk⟩

/-- C7: `deleteProfile` is atomic with respect to referential integrity: it
refuses (returning false, state unchanged) whenever any record references the
profile, succeeds exactly when the profile exists unreferenced, removes only
the profile row in that case, and therefore never creates a dangling
profileId reference. -/
theorem deleteProfile_referential_integrity (s : MemStorage) (id : Nat) :
    (referencesProfile s id → s.deleteProfile id = (false, s))
    ∧ ((s.deleteProfile id).1 = true →
        ¬ referencesProfile s id ∧ ∃ p ∈ s.profiles, p.id = id)
    ∧ (¬ referencesProfile s id → (∃ p ∈ s.profiles, p.id = id) →
        (s.deleteProfile id).1 = true)
    ∧ (¬ referencesProfile s id →
        (s.deleteProfile id).2
          = { s with profiles := (deleteByKey Profile.id s.profiles id).2 })
    ∧ (noDanglingRefs s → noDanglingRefs (s.deleteProfile id).2) := by
  have hiff := deleteProfile_cond_iff s id
  refine ⟨?_, ?_, ?_, ?_, ?_⟩
  · intro href
    unfold MemStorage.deleteProfile
    rw [if_pos (hiff.mpr href)]
  · intro htrue
    by_cases href : referencesProfile s id
    · exfalso
      unfold MemStorage.deleteProfile at htrue
      rw [if_pos (hiff.mpr href)] at htrue
      simp at htrue
    · refine ⟨href, ?_⟩
      unfold MemStorage.deleteProfile at htrue
      rw [if_neg (fun hc => href (hiff.mp hc))] at htrue
      exact (deleteByKey_fst_iff _ _ _).mp htrue
  · intro href hex
    unfold MemStorage.deleteProfile
    rw [if_neg (fun hc => href (hiff.mp hc))]
    exact (deleteByKey_fst_iff _ _ _).mpr hex
  · intro href
    unfold MemStorage.deleteProfile
    rw [if_neg (fun hc => href (hiff.mp hc))]
  · intro hnd
    by_cases href : referencesProfile s id
    · unfold MemStorage.deleteProfile
      rw [if_pos (hiff.mpr href)]
      exact hnd
    · unfold MemStorage.deleteProfile
      rw [if_neg (fun hc => href (hiff.mp hc))]
      obtain ⟨h1, h2, h3, h4, h5⟩ := hnd
      refine ⟨?_, ?_, ?_, ?_, ?_⟩
      · intro a ha
        rcases h1 a ha with ⟨p, hp, hpid⟩
        have hne : p.id ≠ id := fun he =>
          href (Or.inl ⟨a, ha, by rw [← hpid]; exact he⟩)
        exact ⟨p, mem_deleteByKey Profile.id hp hne, hpid⟩
      · intro a ha
        rcases h2 a ha with ⟨p, hp, hpid⟩
        have hne : p.id ≠ id := fun he =>
          href (Or.inr (Or.inl ⟨a, ha, by rw [← hpid]; exact he⟩))
        exact ⟨p, mem_deleteByKey Profile.id hp hne, hpid⟩
      · intro t ht
        rcases h3 t ht with ⟨p, hp, hpid⟩
        have hne : p.id ≠ id := fun he =>
          href (Or.inr (Or.inr (Or.inl ⟨t, ht, by rw [← hpid]; exact he⟩)))
        exact ⟨p, mem_deleteByKey Profile.id hp hne, hpid⟩
      · intro x hx
        rcases h4 x hx with ⟨p, hp, hpid⟩
        have hne : p.id ≠ id := fun he =>
          href (Or.inr (Or.inr (Or.inr (Or.inl ⟨x, hx, by rw [← hpid]; exact he⟩))))
        exact ⟨p, mem_deleteByKey Profile.id hp hne, hpid⟩
      · intro x hx
        rcases h5 x hx with ⟨p, hp, hpid⟩
        have hne : p.id ≠ id := fun he =>
          href (Or.inr (Or.inr (Or.inr (Or.inr ⟨x, hx, by rw [← hpid]; exact he⟩))))
        exact ⟨p, mem_deleteByKey Profile.id hp hne, hpid⟩

/-- The first default profile record of the seeded storage. -/
def seProfile : Profile :=
  ⟨1, "Software Engineer",
    "Full-stack developer with 5 years of experience in React, Node.js, and AWS.",
    some "resume", none, none, none⟩

/-- Witness for C7 at concrete inputs: deleting an assigned profile fails and
changes nothing; deleting an unreferenced profile succeeds. -/
theorem deleteProfile_referential_integrity_witness :
    assignedStorage.deleteProfile 1 = (false, assignedStorage)
    ∧ (initialStorage.deleteProfile 1).1 = true := by
  have ha := deleteProfile_referential_integrity assignedStorage 1
  have hi := deleteProfile_referential_integrity initialStorage 1
  refine ⟨ha.1 ?_, hi.2.2.1 (by decide) ⟨seProfile, by decide, rfl⟩⟩
  exact Or.inl ⟨⟨1, 2, 1⟩, by decide, rfl⟩

/-!
Claim about ownership of records created through POST /api/progress-updates.
-/

/-- C10: the handler of `POST /api/progress-updates` ignores the body's
`userId` and `profileId`, fails with 400 when the submitter has no assigned
profile, and every update it creates carries the submitter's id and their
assigned profile's id. -/
theorem postProgressUpdates_ownership
    (validate : MemStorage.InsertProgressUpdate → Bool) (user : User)
    (body : MemStorage.InsertProgressUpdate) (s : MemStorage) :
    (s.getUserAssignedProfile user.id = none →
      postProgressUpdates validate progressCreateOp user body s = (400, s, none))
    ∧ (∀ (otherUserId otherProfileId : Nat),
        postProgressUpdates validate progressCreateOp user
          { body with userId := otherUserId, profileId := otherProfileId } s
          = postProgressUpdates validate progressCreateOp user body s)
    ∧ (∀ (p : Profile) (t : Option Target) (r : ProgressUpdate) (s2 : MemStorage),
        s.getUserAssignedProfile user.id = some (p, t) →
        postProgressUpdates validate progressCreateOp user body s = (201, s2, some r) →
        r.userId = user.id ∧ r.profileId = p.id) := by
  refine ⟨?_, ?_, ?_⟩
  · intro h
    simp [postProgressUpdates, h]
  · intro o1 o2
    unfold postProgressUpdates
    cases hg : s.getUserAssignedProfile user.id with
    | none => rfl
    | some ap => rfl
  · intro p t r s2 hg h201
    simp only [postProgressUpdates, hg] at h201
    by_cases hv : validate { body with userId := user.id, profileId := p.id } = true
    · rw [if_pos hv] at h201
      simp [progressCreateOp] at h201
      obtain ⟨hs2, hr⟩ := h201
      rw [← hr]
      exact ⟨rfl, rfl⟩
    · rw [if_neg hv] at h201
      simp at h201

/-- Witness for C10 at concrete inputs. -/
theorem postProgressUpdates_ownership_witness :
    (assignedStorage.createProgressUpdate ⟨2, 1, 20, 1, 1, none⟩).1.userId = leadGenUser1.id
    ∧ (assignedStorage.createProgressUpdate ⟨2, 1, 20, 1, 1, none⟩).1.profileId
        = seProfile.id := by
  have h := (postProgressUpdates_ownership (fun _ => true) leadGenUser1 cexProgressBody
      assignedStorage).2.2 seProfile none
    (assignedStorage.createProgressUpdate ⟨2, 1, 20, 1, 1, none⟩).1
    (assignedStorage.createProgressUpdate ⟨2, 1, 20, 1, 1, none⟩).2
    (by rfl) (by rfl)
  exact h

/-!
Claim about the list GET endpoints for non-manager users.
-/

/-- The from/to date filter chain shared by the progress-update and
lead-entry getters. -/
def dateRangeFilterPU (fromDate toDate : Option Nat) (l : List ProgressUpdate) :
    List ProgressUpdate :=
  match toDate with
  | some t =>
      ((match fromDate with
        | some f => l.filter (fun (x : ProgressUpdate) => f ≤ x.date)
        | none => l) : List ProgressUpdate).filter (fun (x : ProgressUpdate) => x.date ≤ t)
  | none =>
      match fromDate with
      | some f => l.filter (fun x => f ≤ x.date)
      | none => l

/-- The from/to date filter chain on lead entries. -/
def dateRangeFilterLE (fromDate toDate : Option Nat) (l : List LeadEntry) :
    List LeadEntry :=
  match toDate with
  | some t =>
      ((match fromDate with
        | some f => l.filter (fun (x : LeadEntry) => f ≤ x.date)
        | none => l) : List LeadEntry).filter (fun (x : LeadEntry) => x.date ≤ t)
  | none =>
      match fromDate with
      | some f => l.filter (fun x => f ≤ x.date)
      | none => l

theorem getProgressUpdates_some (s : MemStorage) (uid : Nat) (hid : uid ≠ 0)
    (fromDate toDate : Option Nat) :
    s.getProgressUpdates (some uid) fromDate toDate
      = dateRangeFilterPU fromDate toDate
          (s.progressUpdates.filter (fun x => x.userId == uid)) := by
  unfold MemStorage.getProgressUpdates dateRangeFilterPU
  cases fromDate <;> cases toDate <;> simp [hid]

theorem getLeadEntries_some (s : MemStorage) (uid : Nat) (hid : uid ≠ 0)
    (fromDate toDate : Option Nat) :
    s.getLeadEntries (some uid) fromDate toDate
      = dateRangeFilterLE fromDate toDate
          (s.leadEntries.filter (fun x => x.userId == uid)) := by
  unfold MemStorage.getLeadEntries dateRangeFilterLE
  cases fromDate <;> cases toDate <;> simp [hid]

theorem mem_dateRangeFilterPU {fromDate toDate : Option Nat} {l : List ProgressUpdate}
    {x : ProgressUpdate} (h : x ∈ dateRangeFilterPU fromDate toDate l) : x ∈ l := by
  unfold dateRangeFilterPU at h
  cases fromDate with
  | none =>
      cases toDate with
      | none => exact h
      | some t => exact (List.mem_filter.mp h).1
  | some f =>
      cases toDate with
      | none => exact (List.mem_filter.mp h).1
      | some t => exact (List.mem_filter.mp (List.mem_filter.mp h).1).1

theorem mem_dateRangeFilterLE {fromDate toDate : Option Nat} {l : List LeadEntry}
    {x : LeadEntry} (h : x ∈ dateRangeFilterLE fromDate toDate l) : x ∈ l := by
  unfold dateRangeFilterLE at h
  cases fromDate with
  | none =>
      cases toDate with
      | none => exact h
      | some t => exact (List.mem_filter.mp h).1
  | some f =>
      cases toDate with
      | none => exact (List.mem_filter.mp h).1
      | some t => exact (List.mem_filter.mp (List.mem_filter.mp h).1).1

theorem getTargetsRoute_nonmanager (u : User) (q : Option Nat) (s : MemStorage)
    (hrole : u.role ≠ Role.manager) (hid : u.id ≠ 0) :
    getTargetsRoute u q s = s.targets.filter (fun t => t.userId == u.id) := by
  unfold getTargetsRoute routeUserId
  rw [if_pos hrole]
  unfold MemStorage.getTargets
  simp [hid]

theorem getProgressUpdatesRoute_nonmanager (u : User) (q : Option Nat)
    (fromDate toDate : Option Nat) (s : MemStorage)
    (hrole : u.role ≠ Role.manager) (hid : u.id ≠ 0) :
    getProgressUpdatesRoute u q fromDate toDate s
      = dateRangeFilterPU fromDate toDate
          (s.progressUpdates.filter (fun x => x.userId == u.id)) := by
  unfold getProgressUpdatesRoute routeUserId
  rw [if_pos hrole]
  exact getProgressUpdates_some s u.id hid fromDate toDate

theorem getLeadEntriesRoute_nonmanager (u : User) (q : Option Nat)
    (fromDate toDate : Option Nat) (s : MemStorage)
    (hrole : u.role ≠ Role.manager) (hid : u.id ≠ 0) :
    getLeadEntriesRoute u q fromDate toDate s
      = dateRangeFilterLE fromDate toDate
          (s.leadEntries.filter (fun x => x.userId == u.id)) := by
  unfold getLeadEntriesRoute routeUserId
  rw [if_pos hrole]
  exact getLeadEntries_some s u.id hid fromDate toDate

/-- C9: a non-manager's GET /api/targets, /api/progress-updates and
/api/lead-entries responses contain only their own records, depend only on
their own records (adding, removing or changing other users' records does not
change them), and the userId query parameter is ignored for non-managers. -/
theorem nonmanager_get_isolation (u : User) (q q2 : Option Nat)
    (fromDate toDate : Option Nat) (s s2 : MemStorage)
    (hrole : u.role ≠ Role.manager) (hid : u.id ≠ 0) :
    (∀ t ∈ getTargetsRoute u q s, t.userId = u.id)
    ∧ (∀ x ∈ getProgressUpdatesRoute u q fromDate toDate s, x.userId = u.id)
    ∧ (∀ e ∈ getLeadEntriesRoute u q fromDate toDate s, e.userId = u.id)
    ∧ (s.targets.filter (fun t => t.userId == u.id)
          = s2.targets.filter (fun t => t.userId == u.id) →
        getTargetsRoute u q s = getTargetsRoute u q s2)
    ∧ (s.progressUpdates.filter (fun x => x.userId == u.id)
          = s2.progressUpdates.filter (fun x => x.userId == u.id) →
        getProgressUpdatesRoute u q fromDate toDate s
          = getProgressUpdatesRoute u q fromDate toDate s2)
    ∧ (s.leadEntries.filter (fun x => x.userId == u.id)
          = s2.leadEntries.filter (fun x => x.userId == u.id) →
        getLeadEntriesRoute u q fromDate toDate s
          = getLeadEntriesRoute u q fromDate toDate s2)
    ∧ getTargetsRoute u q s = getTargetsRoute u q2 s
    ∧ getProgressUpdatesRoute u q fromDate toDate s
        = getProgressUpdatesRoute u q2 fromDate toDate s
    ∧ getLeadEntriesRoute u q fromDate toDate s
        = getLeadEntriesRoute u q2 fromDate toDate s := by
  have hq : routeUserId u q = routeUserId u q2 := by
    unfold routeUserId
    rw [if_pos hrole, if_pos hrole]
  refine ⟨?_, ?_, ?_, ?_, ?_, ?_, ?_, ?_, ?_⟩
  · intro t ht
    rw [getTargetsRoute_nonmanager u q s hrole hid] at ht
    rcases List.mem_filter.mp ht with ⟨_, h2⟩
    simpa using h2
  · intro x hx
    rw [getProgressUpdatesRoute_nonmanager u q fromDate toDate s hrole hid] at hx
    rcases List.mem_filter.mp (mem_dateRangeFilterPU hx) with ⟨_, h2⟩
    simpa using h2
  · intro e he
    rw [getLeadEntriesRoute_nonmanager u q fromDate toDate s hrole hid] at he
    rcases List.mem_filter.mp (mem_dateRangeFilterLE he) with ⟨_, h2⟩
    simpa using h2
  · intro hf
    rw [getTargetsRoute_nonmanager u q s hrole hid,
      getTargetsRoute_nonmanager u q s2 hrole hid, hf]
  · intro hf
    rw [getProgressUpdatesRoute_nonmanager u q fromDate toDate s hrole hid,
      getProgressUpdatesRoute_nonmanager u q fromDate toDate s2 hrole hid, hf]
  · intro hf
    rw [getLeadEntriesRoute_nonmanager u q fromDate toDate s hrole hid,
      getLeadEntriesRoute_nonmanager u q fromDate toDate s2 hrole hid, hf]
  · unfold getTargetsRoute
    rw [hq]
  · unfold getProgressUpdatesRoute
    rw [hq]
  · unfold getLeadEntriesRoute
    rw [hq]

/-- Witness for C9 at concrete inputs. -/
theorem nonmanager_get_isolation_witness :
    (∀ x ∈ getProgressUpdatesRoute leadGenUser1 (some 3) none none dailyWitnessStorage,
      x.userId = leadGenUser1.id)
    ∧ getTargetsRoute leadGenUser1 (some 3) dailyWitnessStorage
        = getTargetsRoute leadGenUser1 none dailyWitnessStorage := by
  have h := nonmanager_get_isolation leadGenUser1 (some 3) none none none
    dailyWitnessStorage dailyWitnessStorage (by decide) (by decide)
  exact ⟨h.2.1, h.2.2.2.2.2.2.1⟩

/-!
Claims about the assignment relations.
-/

theorem setProfileOfFirst_map_userId (l : List LeadGenAssignment) (u p : Nat) :
    (MemStorage.setProfileOfFirst l u p).map (fun a => a.userId)
      = l.map (fun a => a.userId) := by
  induction l with
  | nil => rfl
  | cons a as ih =>
      by_cases h : a.userId = u
      · simp [MemStorage.setProfileOfFirst, h]
      · simp [MemStorage.setProfileOfFirst, h, ih]

theorem setProfileOfFirst_length (l : List LeadGenAssignment) (u p : Nat) :
    (MemStorage.setProfileOfFirst l u p).length = l.length := by
  induction l with
  | nil => rfl
  | cons a as ih =>
      by_cases h : a.userId = u
      · simp [MemStorage.setProfileOfFirst, h]
      · simp [MemStorage.setProfileOfFirst, h, ih]

/-- States reachable from the constructor state by the lead-gen assignment
operations. -/
inductive LGReachable : MemStorage → Prop where
  | init : LGReachable initialStorage
  | create (s : MemStorage) (userId profileId : Nat) :
      LGReachable s → LGReachable (s.createLeadGenAssignment userId profileId).2
  | update (s : MemStorage) (userId profileId : Nat) :
      LGReachable s → LGReachable (s.updateLeadGenAssignment userId profileId).2
  | delete (s : MemStorage) (userId : Nat) :
      LGReachable s → LGReachable (s.deleteLeadGenAssignment userId).2

/-- Each user appears in at most one lead-gen assignment row. -/
def lgUserIdsNodup (s : MemStorage) : Prop :=
  (s.leadGenAssignments.map (fun a => a.userId)).Nodup

theorem lgReachable_userIds_nodup (s : MemStorage) (h : LGReachable s) :
    lgUserIdsNodup s := by
  induction h with
  | init =>
      show ((initialStorage.leadGenAssignments).map (fun a => a.userId)).Nodup
      rw [show initialStorage.leadGenAssignments = [] from rfl]
      simp
  | create s0 u p _ ih =>
      unfold MemStorage.createLeadGenAssignment
      cases hg : s0.getLeadGenAssignment u with
      | some ex =>
          show ((MemStorage.setProfileOfFirst s0.leadGenAssignments u p).map
            (fun a => a.userId)).Nodup
          rw [setProfileOfFirst_map_userId]
          exact ih
      | none =>
          show ((s0.leadGenAssignments
            ++ [({ id := s0.currentLeadGenAssignmentId, userId := u, profileId := p }
              : LeadGenAssignment)]).map (fun a => a.userId)).Nodup
          rw [List.map_append]
          refine List.Nodup.append ih (by simp) ?_
          intro y hy hz
          simp only [List.map_cons, List.map_nil, List.mem_singleton] at hz
          subst hz
          rcases List.mem_map.mp hy with ⟨a, ha, hau⟩
          have hnp := List.find?_eq_none.mp hg a ha
          simp [hau] at hnp
  | update s0 u p _ ih =>
      unfold MemStorage.updateLeadGenAssignment
      cases hg : s0.getLeadGenAssignment u with
      | none => exact ih
      | some ex =>
          show ((MemStorage.setProfileOfFirst s0.leadGenAssignments u p).map
            (fun a => a.userId)).Nodup
          rw [setProfileOfFirst_map_userId]
          exact ih
  | delete s0 u _ ih =>
      unfold MemStorage.deleteLeadGenAssignment
      cases hg : s0.getLeadGenAssignment u with
      | none => exact ih
      | some a =>
          show (((deleteByKey LeadGenAssignment.id s0.leadGenAssignments a.id).2).map
            (fun b => b.userId)).Nodup
          exact List.Nodup.sublist
            (List.Sublist.map _ (deleteByKey_sublist LeadGenAssignment.id _ a.id)) ih

/-- Reachable state with two lead-gen assignments naming the same profile. -/
def lgCexState : MemStorage :=
  ((initialStorage.createLeadGenAssignment 2 1).2.createLeadGenAssignment 3 1).2

/-- C5 counterexample: assigning profile 1 to users 2 and 3 in turn reaches a
state where profile 1 appears in two lead-gen assignment rows, refuting the
claimed uniqueness of profileIds in the relation. -/
theorem leadGenAssignment_profile_not_unique :
    LGReachable lgCexState
    ∧ ¬ (lgCexState.leadGenAssignments.map (fun a => a.profileId)).Nodup := by
  constructor
  · exact LGReachable.create _ 3 1 (LGReachable.create _ 2 1 LGReachable.init)
  · decide

/-- C5 (amended): in every state reachable by the lead-gen assignment
operations each userId appears in at most one row, and creating an assignment
for a user who already has one overwrites its profileId without adding a row;
profileIds, however, are not unique across rows. -/
theorem leadGenAssignment_user_unique :
    (∀ s : MemStorage, LGReachable s → lgUserIdsNodup s)
    ∧ (∀ (s : MemStorage) (u p : Nat) (ex : LeadGenAssignment),
        s.getLeadGenAssignment u = some ex →
        (s.createLeadGenAssignment u p).1 = { ex with profileId := p }
        ∧ (s.createLeadGenAssignment u p).2.leadGenAssignments.length
            = s.leadGenAssignments.length) := by
  refine ⟨fun s h => lgReachable_userIds_nodup s h, ?_⟩
  intro s u p ex hg
  simp only [MemStorage.createLeadGenAssignment, hg]
  exact ⟨trivial, setProfileOfFirst_length _ _ _⟩

/-- Witness for C5 at concrete inputs. -/
theorem leadGenAssignment_user_unique_witness :
    lgUserIdsNodup lgCexState
    ∧ (assignedStorage.createLeadGenAssignment 2 5).2.leadGenAssignments.length
        = assignedStorage.leadGenAssignments.length := by
  obtain ⟨h1, h2⟩ := leadGenAssignment_user_unique
  refine ⟨h1 lgCexState
    (LGReachable.create _ 3 1 (LGReachable.create _ 2 1 LGReachable.init)), ?_⟩
  exact (h2 assignedStorage 2 5 ⟨1, 2, 1⟩ (by rfl)).2

/-- States reachable from the constructor state by the sales assignment
operations. -/
inductive SalesReachable : MemStorage → Prop where
  | init : SalesReachable initialStorage
  | create (s : MemStorage) (userId profileId : Nat) :
      SalesReachable s → SalesReachable (s.createSalesAssignment userId profileId).2
  | delete (s : MemStorage) (id : Nat) :
      SalesReachable s → SalesReachable (s.deleteSalesAssignment id).2

/-- No duplicate (userId, profileId) pair among the sales assignments. -/
def salesPairsNodup (s : MemStorage) : Prop :=
  (s.salesAssignments.map (fun a => (a.userId, a.profileId))).Nodup

theorem salesReachable_pairs_nodup (s : MemStorage) (h : SalesReachable s) :
    salesPairsNodup s := by
  induction h with
  | init =>
      show ((initialStorage.salesAssignments).map (fun a => (a.userId, a.profileId))).Nodup
      rw [show initialStorage.salesAssignments = [] from rfl]
      simp
  | create s0 u p _ ih =>
      unfold MemStorage.createSalesAssignment
      cases hg : s0.salesAssignments.find? (fun a => a.userId == u && a.profileId == p) with
      | some ex => exact ih
      | none =>
          show ((s0.salesAssignments
            ++ [({ id := s0.currentSalesAssignmentId, userId := u, profileId := p }
              : SalesAssignment)]).map (fun a => (a.userId, a.profileId))).Nodup
          rw [List.map_append]
          refine List.Nodup.append ih (by simp) ?_
          intro y hy hz
          simp only [List.map_cons, List.map_nil, List.mem_singleton] at hz
          subst hz
          rcases List.mem_map.mp hy with ⟨a, ha, hau⟩
          have hnp := List.find?_eq_none.mp hg a ha
          have h1 : a.userId = u := congrArg Prod.fst hau
          have h2 : a.profileId = p := congrArg Prod.snd hau
          simp [h1, h2] at hnp
  | delete s0 id0 _ ih =>
      unfold MemStorage.deleteSalesAssignment
      show (((deleteByKey SalesAssignment.id s0.salesAssignments id0).2).map
        (fun a => (a.userId, a.profileId))).Nodup
      exact List.Nodup.sublist
        (List.Sublist.map _ (deleteByKey_sublist SalesAssignment.id _ id0)) ih

/-- C6: `createSalesAssignment` is idempotent on the (userId, profileId)
pair: when the pair already exists it returns the existing row and leaves the
state unchanged, so no reachable state holds duplicate pairs. -/
theorem createSalesAssignment_idempotent :
    (∀ s : MemStorage, SalesReachable s → salesPairsNodup s)
    ∧ (∀ (s : MemStorage) (u p : Nat) (ex : SalesAssignment),
        s.salesAssignments.find? (fun a => a.userId == u && a.profileId == p) = some ex →
        s.createSalesAssignment u p = (ex, s))
    ∧ (∀ (s : MemStorage) (u p : Nat),
        (∃ a ∈ s.salesAssignments, a.userId = u ∧ a.profileId = p) →
        (s.createSalesAssignment u p).2 = s
        ∧ (s.createSalesAssignment u p).1 ∈ s.salesAssignments
        ∧ (s.createSalesAssignment u p).1.userId = u
        ∧ (s.createSalesAssignment u p).1.profileId = p) := by
  refine ⟨fun s h => salesReachable_pairs_nodup s h, ?_, ?_⟩
  · intro s u p ex hg
    simp only [MemStorage.createSalesAssignment, hg]
  · rintro s u p ⟨a, ha, h1, h2⟩
    cases hg : s.salesAssignments.find? (fun b => b.userId == u && b.profileId == p) with
    | none =>
        exfalso
        have hnp := List.find?_eq_none.mp hg a ha
        simp [h1, h2] at hnp
    | some ex =>
        have hmem := List.mem_of_find?_eq_some hg
        have hpred := List.find?_some hg
        have hpu : ex.userId = u := by
          have hand := (Bool.and_eq_true _ _).mp hpred
          simpa using hand.1
        have hpp : ex.profileId = p := by
          have hand := (Bool.and_eq_true _ _).mp hpred
          simpa using hand.2
        have hcreate : s.createSalesAssignment u p = (ex, s) := by
          simp only [MemStorage.createSalesAssignment, hg]
        rw [hcreate]
        exact ⟨rfl, hmem, hpu, hpp⟩

/-- Seeded storage with one sales assignment (user 4, profile 1). -/
def salesState1 : MemStorage := (initialStorage.createSalesAssignment 4 1).2

/-- Witness for C6 at concrete inputs. -/
theorem createSalesAssignment_idempotent_witness :
    salesPairsNodup salesState1
    ∧ salesState1.createSalesAssignment 4 1 = (⟨1, 4, 1⟩, salesState1) := by
  obtain ⟨h1, h2, h3⟩ := createSalesAssignment_idempotent
  refine ⟨h1 salesState1 (SalesReachable.create _ 4 1 SalesReachable.init), ?_⟩
  exact h2 salesState1 4 1 ⟨1, 4, 1⟩ (by rfl)

end ProfilePilot
